import Mathlib

/-!
# Entity start-up and shutdown of the load-test orchestrator

A shallow embedding of `StartUserEntities` from
`cmd/loadtest/user_entity_starter.go`, in two layers.

* The orchestrator goroutine is sequential: `StartUserEntities` below lists, in
  program order, the effects it performs (wait-group operations, console
  lines, goroutine spawns, channel closes).  The only run-time panic its own
  pure computation can raise, the `entityNum % len(serverState.Users)` of
  line 68, ends the list with `Action.panic`.
* The goroutines it spawns, the wait groups, the channels and the delivery of
  signals are given an interleaving semantics by `step`: a state, a label
  saying who moves, and the next state (or `none` when that move is blocked).

What the semantics abstracts from: time (a sleep ends at some point, an entity
returns from `Start()` at some point); the bounded width of Go's `int` in the
loop counter and of the wait-group counters; the instant between
`signal.Notify` and the receive of line 111 (the orchestrator counts as
blocked in the receive as soon as the handler is registered).

The code of other files that the function calls (`entity.Start()`, the status
printer, the creation functions, `cmdlib.GetUserClient`) is not embedded; what
the semantics assumes of it is in the definitions whose comment starts with
"Modelled from the spec".
-/

namespace LoadTest

/-! ## Data model -/

/-- Run-time panics of Go that the embedded code can raise. -/
inductive Panic
  | integerDivideByZero
  | indexOutOfRange
  | closeOfClosedChannel
  | negativeWaitGroupCounter
  deriving DecidableEq, Repr

/-- The three `sync.WaitGroup` variables of `StartUserEntities` (lines 38, 44, 50). -/
inductive WaitGroupName
  | stopWait
  | printerWait
  | entityWaitChannel
  deriving DecidableEq, Repr

/-- The channels of `StartUserEntities` (lines 35, 41, 47, 109). -/
inductive ChanName
  | stopChan
  | statusPrinterStopChan
  | statusChannel
  | interrupChannel
  deriving DecidableEq, Repr

/-- The part of `loadtestconfig.UserEntitiesConfiguration` read by the function.
Go `int` values are integers; both fields can hold negative numbers. -/
structure UserEntitiesConfiguration where
  NumClientEntities : Int
  EntityRampupDistanceMilliseconds : Int
  deriving DecidableEq, Repr

/-- The part of `loadtestconfig.LoadTestConfig` read by the function. -/
structure LoadTestConfig where
  UserEntitiesConfiguration : UserEntitiesConfiguration
  deriving DecidableEq, Repr

/-- The part of `loadtestconfig.ServerState` read by the function: the ordered
list of simulated-user identities. -/
structure ServerState (User : Type) where
  Users : List User
  deriving DecidableEq, Repr

/-- `UserEntityConfig` as built on lines 84-94.  `EntityUser` is the element
the pointer `&serverState.Users[...]` points to; the shared channels and the
wait group are referred to by name.  The two transport objects (`Client`,
`WebSocketClient`) come from external packages and are left out; the call that
builds them is recorded as `Action.getUserClient`. -/
structure UserEntityConfig (User : Type) where
  Id : Int
  EntityUser : User
  LoadTestConfig : LoadTestConfig
  State : ServerState User
  StatusReportChannel : ChanName
  StopEntityChannel : ChanName
  StopEntityWaitGroup : WaitGroupName
  deriving DecidableEq, Repr

/-! ## Durations -/

/-- Two's-complement wrap-around of an integer into the `int64` range. -/
def wrapInt64 (x : Int) : Int :=
  (x + 2 ^ 63) % 2 ^ 64 - 2 ^ 63

/-- The conversion `time.Duration(x)`: an `int64` count of nanoseconds. -/
def Duration (x : Int) : Int :=
  wrapInt64 x

/-- Multiplication of two `time.Duration` values (`int64`, wraps on overflow). -/
def mulDuration (a b : Int) : Int :=
  wrapInt64 (a * b)

/-- The constant `time.Millisecond`, in nanoseconds. -/
def Millisecond : Int :=
  1000000

/-- The sub-expression
`time.Duration(config...EntityRampupDistanceMilliseconds) * time.Millisecond`
of line 100: one rampup interval. -/
def rampupDistance (config : LoadTestConfig) : Int :=
  mulDuration (Duration config.UserEntitiesConfiguration.EntityRampupDistanceMilliseconds)
    Millisecond

/-- The argument of `time.Sleep` on line 100:
`time.Duration(r) * time.Millisecond * time.Duration(entityNum)`, evaluated
left to right in `int64`. -/
def sleepDuration (config : LoadTestConfig) (entityNum : Nat) : Int :=
  mulDuration (rampupDistance config) (Duration (entityNum : Int))

/-- The time a call `time.Sleep(d)` pauses for: Go documents that a negative or
zero duration makes `Sleep` return immediately. -/
def sleepTime (d : Int) : Int :=
  max d 0

/-! ## The orchestrator goroutine -/

/-- One step of the goroutine spawned on lines 98-102. -/
inductive TaskStep (Entity : Type)
  | waitBarrier
  | sleep (d : Int)
  | start (entity : Entity)
  deriving DecidableEq, Repr

/-- The body of the goroutine spawned on lines 98-102 for `entityNum`:
`entityWaitChannel.Wait()`, then `time.Sleep(...)`, then `entity.Start()`. -/
def goroutine {Entity : Type} (config : LoadTestConfig) (entityNum : Nat) (entity : Entity) :
    List (TaskStep Entity) :=
  [.waitBarrier, .sleep (sleepDuration config entityNum), .start entity]

/-- The effects of the orchestrator goroutine. -/
inductive Action (User Entity : Type)
  | add (wg : WaitGroupName) (delta : Int)
  | done (wg : WaitGroupName)
  | wait (wg : WaitGroupName)
  | println (line : String)
  | goStatusPrinter
  | getUserClient (entityUser : User)
  | create (fn : Nat) (entityConfig : UserEntityConfig User) (entity : Entity)
  | go (entityNum : Nat) (entity : Entity)
  | notify
  | receive
  | close (c : ChanName)
  | panic (p : Panic)
  deriving DecidableEq, Repr

section Orchestrator

variable {User Entity : Type}

/-- Line 68: `&serverState.Users[entityNum%len(serverState.Users)]`.  The
remainder panics on a zero length, the indexing on an index out of range. -/
def selectUser (users : List User) (entityNum : Nat) : Except Panic User :=
  if users.length = 0 then .error .integerDivideByZero
  else
    match users[entityNum % users.length]? with
    | some entityUser => .ok entityUser
    | none => .error .indexOutOfRange

/-- Lines 84-94: the configuration handed to every creation function of one
ordinal. -/
def mkEntityConfig (config : LoadTestConfig) (serverState : ServerState User)
    (entityNum : Nat) (entityUser : User) : UserEntityConfig User :=
  { Id := (entityNum : Int)
    EntityUser := entityUser
    LoadTestConfig := config
    State := serverState
    StatusReportChannel := .statusChannel
    StopEntityChannel := .stopChan
    StopEntityWaitGroup := .stopWait }

/-- Lines 96-103: the inner loop over the creation functions; `fn` counts the
functions already visited. -/
def createEntities (entityConfig : UserEntityConfig User) (entityNum : Nat) :
    Nat → List (UserEntityConfig User → Entity) → List (Action User Entity)
  | _, [] => []
  | fn, createEntity :: rest =>
    .create fn entityConfig (createEntity entityConfig)
      :: .go entityNum (createEntity entityConfig)
      :: createEntities entityConfig entityNum (fn + 1) rest

/-- Lines 105-120: what follows the start-up loop. -/
def shutdown : List (Action User Entity) :=
  [ .done .entityWaitChannel,
    .println "------------------------- Done starting entities",
    .notify,
    .receive,
    .println "Shutdown signal recieved.",
    .close .stopChan,
    .println "Waiting for user entities",
    .wait .stopWait,
    .println "Flushing status reporting channel",
    .close .statusPrinterStopChan,
    .wait .printerWait,
    .println "DONE!" ]

/-- Lines 64-104: the start-up loop over the ordinals still to visit, followed
by the rest of the function.  A panic ends the goroutine on the spot. -/
def startLoop (config : LoadTestConfig) (serverState : ServerState User)
    (fns : List (UserEntityConfig User → Entity)) : List Nat → List (Action User Entity)
  | [] => shutdown
  | entityNum :: rest =>
    .println ("Starting Entity: " ++ toString entityNum) ::
      match selectUser serverState.Users entityNum with
      | .error p => [.panic p]
      | .ok entityUser =>
        .getUserClient entityUser
          :: .add .stopWait (fns.length : Int)
          :: (createEntities (mkEntityConfig config serverState entityNum entityUser)
                entityNum 0 fns
              ++ startLoop config serverState fns rest)

/-- The ordinals visited by `for entityNum := 0; entityNum < numEntities; entityNum++`:
none when `numEntities` is zero or negative. -/
def ordinals (numEntities : Int) : List Nat :=
  List.range numEntities.toNat

/-- The whole of `StartUserEntities` (lines 33-121), as the effects of the
orchestrator goroutine in program order. -/
def StartUserEntities (config : LoadTestConfig) (serverState : ServerState User)
    (fns : List (UserEntityConfig User → Entity)) : List (Action User Entity) :=
  .add .entityWaitChannel 1
    :: .add .printerWait 1
    :: .goStatusPrinter
    :: .println ("------------------------- Starting "
          ++ toString config.UserEntitiesConfiguration.NumClientEntities ++ " entities")
    :: startLoop config serverState fns (ordinals config.UserEntitiesConfiguration.NumClientEntities)

end Orchestrator

/-! ## Interleaving semantics -/

/-- A goroutine spawned on lines 98-102: its ordinal, the steps it still has to
take, and whether the `entity.Start()` it is in has been entered. -/
structure TaskState (Entity : Type) where
  entityNum : Nat
  rest : List (TaskStep Entity)
  started : Bool
  deriving DecidableEq, Repr

/-- The goroutine of line 59. -/
inductive PrinterState
  | notStarted
  | running
  | exited
  deriving DecidableEq, Repr

/-- Whether the process is still running. `killed` is the default disposition
of SIGINT and SIGTERM in a Go program that has not asked for them with
`signal.Notify`: the program exits. -/
inductive Status
  | running
  | panicked (p : Panic)
  | killed
  deriving DecidableEq, Repr

/-- A state of the process: the orchestrator goroutine (`executed` is what it
has done, `rest` what it still has to do), the spawned goroutines, the
counters of the three wait groups, which channels are closed, whether the
signal handler is registered, whether the orchestrator is blocked in the
receive of line 111 (`receiving`), and the console. -/
structure State (User Entity : Type) where
  executed : List (Action User Entity)
  rest : List (Action User Entity)
  tasks : List (TaskState Entity)
  printer : PrinterState
  stopWait : Int
  printerWait : Int
  entityWaitChannel : Int
  stopChanClosed : Bool
  statusPrinterStopChanClosed : Bool
  handler : Bool
  receiving : Bool
  output : List String
  status : Status
  deriving DecidableEq, Repr

/-- Who moves: the orchestrator, the spawned goroutine at a position of
`tasks`, the status printer, or the operating system delivering an interrupt
or termination signal. -/
inductive Label
  | main
  | task (i : Nat)
  | printer
  | interrupt
  deriving DecidableEq, Repr

section Semantics

variable {User Entity : Type}

/-- The state in which `StartUserEntities config serverState fns` is entered. -/
def initial (config : LoadTestConfig) (serverState : ServerState User)
    (fns : List (UserEntityConfig User → Entity)) : State User Entity :=
  { executed := []
    rest := StartUserEntities config serverState fns
    tasks := []
    printer := .notStarted
    stopWait := 0
    printerWait := 0
    entityWaitChannel := 0
    stopChanClosed := false
    statusPrinterStopChanClosed := false
    handler := false
    receiving := false
    output := []
    status := .running }

/-- The counter of a wait group. -/
def State.counter (s : State User Entity) : WaitGroupName → Int
  | .stopWait => s.stopWait
  | .printerWait => s.printerWait
  | .entityWaitChannel => s.entityWaitChannel

/-- Store a new value in the counter of a wait group. -/
def State.setCounter (s : State User Entity) (wg : WaitGroupName) (v : Int) : State User Entity :=
  match wg with
  | .stopWait => { s with stopWait := v }
  | .printerWait => { s with printerWait := v }
  | .entityWaitChannel => { s with entityWaitChannel := v }

/-- `sync.WaitGroup.Add(delta)`: the counter changes by `delta`; a counter that
would go negative panics. `Done()` is `Add(-1)`. -/
def State.wgAdd (s : State User Entity) (wg : WaitGroupName) (delta : Int) : State User Entity :=
  if s.counter wg + delta < 0 then { s with status := .panicked .negativeWaitGroupCounter }
  else s.setCounter wg (s.counter wg + delta)

/-- Whether a channel that `StartUserEntities` closes is closed. -/
def State.closed (s : State User Entity) : ChanName → Bool
  | .stopChan => s.stopChanClosed
  | .statusPrinterStopChan => s.statusPrinterStopChanClosed
  | _ => false

/-- The built-in `close(c)`: closing a closed channel panics. -/
def State.closeChan (s : State User Entity) (c : ChanName) : State User Entity :=
  if s.closed c then { s with status := .panicked .closeOfClosedChannel }
  else
    match c with
    | .stopChan => { s with stopChanClosed := true }
    | .statusPrinterStopChan => { s with statusPrinterStopChanClosed := true }
    | _ => s

/-- `TmpLogger.Println` (lines 29-31): `fmt.Fprintln` on the logger's writer,
here the list of the lines written so far. The count and the error it returns
are ignored by every call in `StartUserEntities`. -/
def TmpLogger.Println (writer : List String) (line : String) : List String :=
  writer ++ [line]

/-- Modelled from the spec: `cmdlib.GetUserClient` and the entity creation
functions are in other files. The transport is "constructed once per entity
before the Entity is created" and "the core treats it as injected"; a creation
function is "a pure function from EntityConfig to an Entity instance" that
"must not itself perform blocking I/O or side effects beyond object
construction". A call of either leaves the wait groups, the channels and the
console as they are. -/
def collaboratorCall (s : State User Entity) : State User Entity :=
  s

/-- The effect of one orchestrator action on the shared state; `none` when the
action blocks. `Wait` blocks until the counter is zero; the receive of line
111 has no effect of its own: the goroutine blocks in it (see `step`) until a
signal is delivered to it (see `stepInterrupt`). -/
def exec (config : LoadTestConfig) (s : State User Entity) :
    Action User Entity → Option (State User Entity)
  | .add wg delta => some (s.wgAdd wg delta)
  | .done wg => some (s.wgAdd wg (-1))
  | .wait wg => if s.counter wg = 0 then some s else none
  | .println line => some { s with output := TmpLogger.Println s.output line }
  | .goStatusPrinter => some { s with printer := .running }
  | .getUserClient _ => some (collaboratorCall s)
  | .create _ _ _ => some (collaboratorCall s)
  | .go entityNum entity =>
    some { s with tasks := s.tasks ++ [⟨entityNum, goroutine config entityNum entity, false⟩] }
  | .notify => some { s with handler := true }
  | .receive => none
  | .close c => some (s.closeChan c)
  | .panic p => some { s with status := .panicked p }

/-- Move the orchestrator past the action at the head of `rest`. An action
that panicked has not completed: the goroutine stays where it is. -/
def State.advance (s : State User Entity) : State User Entity :=
  if s.status ≠ .running then s
  else
    match s.rest with
    | [] => s
    | a :: rest => { s with executed := s.executed ++ [a], rest := rest }

/-- Modelled from the spec: `Start()` is code of the entity variants, which
`user_entity_starter.go` does not contain. "On exit it must decrement the
shared CompletionCounter exactly once, even if it exits due to an internal
error": the return of `Start()` performs one `stopWait.Done()`. -/
def startReturns (s : State User Entity) : State User Entity :=
  s.wgAdd .stopWait (-1)

/-- One step of the spawned goroutine at position `i` (lines 98-102). The
barrier wait needs the counter of `entityWaitChannel` at zero; the sleep ends
at some time; `entity.Start()` is entered and, at some later time, returns. -/
def stepTask (s : State User Entity) (i : Nat) : Option (State User Entity) :=
  match s.tasks[i]? with
  | none => none
  | some t =>
    match t.rest with
    | [] => none
    | .waitBarrier :: rest =>
      if s.entityWaitChannel = 0 then some { s with tasks := s.tasks.set i { t with rest := rest } }
      else none
    | .sleep _ :: rest => some { s with tasks := s.tasks.set i { t with rest := rest } }
    | .start _ :: rest =>
      if t.started then
        some (startReturns { s with tasks := s.tasks.set i { t with rest := rest } })
      else some { s with tasks := s.tasks.set i { t with started := true } }

/-- Modelled from the spec: `UserEntityStatusPrinter` (started on line 59) is
in another file. It reads "until its stop channel is closed AND the queue is
drained to empty", and the orchestrator records "its own completion handle",
`printerWait`: once `statusPrinterStopChan` is closed the printer exits with
one `printerWait.Done()`. -/
def stepPrinter (s : State User Entity) : Option (State User Entity) :=
  if s.printer = .running ∧ s.statusPrinterStopChanClosed then
    some ({ s with printer := .exited }.wgAdd .printerWait (-1))
  else none

/-- Delivery of SIGINT or SIGTERM. Without a registered handler the process
exits. With one, `os/signal` does a non-blocking send on `interrupChannel`,
which is unbuffered (line 109): the orchestrator gets the signal only if it is
already blocked in the receive of line 111 (`receiving`), and the receive then
completes; otherwise the signal is dropped, also when `signal.Notify` has
returned and the orchestrator has not yet blocked in the receive. -/
def stepInterrupt (s : State User Entity) : Option (State User Entity) :=
  if s.handler then
    match s.rest with
    | .receive :: _ =>
      if s.receiving then some (State.advance { s with receiving := false }) else some s
    | _ => some s
  else some { s with status := .killed }

/-- The step function: `none` when the move is not possible (a blocked or
finished goroutine, a process that has ended). The orchestrator's move at the
receive of line 111 is to block in it: from then on it is `receiving`, and only
a delivered signal moves it on. -/
def step (config : LoadTestConfig) (s : State User Entity) (l : Label) :
    Option (State User Entity) :=
  if s.status ≠ .running then none
  else
    match l with
    | .main =>
      match s.rest with
      | [] => none
      | .receive :: _ => if s.receiving then none else some { s with receiving := true }
      | a :: _ => (exec config s a).map State.advance
    | .task i => stepTask s i
    | .printer => stepPrinter s
    | .interrupt => stepInterrupt s

/-- Run a schedule: the moves of a list of labels, one after the other. -/
def run (config : LoadTestConfig) (s : State User Entity) : List Label → Option (State User Entity)
  | [] => some s
  | l :: ls => (step config s l).bind fun s' => run config s' ls

/-- The states the process can reach from the entry of
`StartUserEntities config serverState fns`. -/
inductive Reachable (config : LoadTestConfig) (serverState : ServerState User)
    (fns : List (UserEntityConfig User → Entity)) : State User Entity → Prop
  | init : Reachable config serverState fns (initial config serverState fns)
  | next {s s' : State User Entity} (l : Label) :
      Reachable config serverState fns s → step config s l = some s' →
      Reachable config serverState fns s'

end Semantics

/-! ## Observations on a list of orchestrator actions -/

section Observations

variable {User Entity : Type}

/-- The invocation of a creation function recorded by an action: the position
of the function in `entityCreationFunctions`, the configuration it was given,
and the entity it returned. -/
def Action.creation? : Action User Entity → Option (Nat × UserEntityConfig User × Entity)
  | .create fn entityConfig entity => some (fn, entityConfig, entity)
  | _ => none

/-- The goroutine spawned by an action: its ordinal and its entity. -/
def Action.spawn? : Action User Entity → Option (Nat × Entity)
  | .go entityNum entity => some (entityNum, entity)
  | _ => none

/-- The amount an action adds to a wait group with `Add`. -/
def Action.delta (wg : WaitGroupName) : Action User Entity → Int
  | .add w d => if w = wg then d else 0
  | _ => 0

/-- The console line an action prints. -/
def Action.line? : Action User Entity → Option String
  | .println line => some line
  | _ => none

/-- The panic an action raises. -/
def Action.panic? : Action User Entity → Option Panic
  | .panic p => some p
  | _ => none

/-- The invocations of creation functions, in order. -/
def creations (l : List (Action User Entity)) : List (Nat × UserEntityConfig User × Entity) :=
  l.filterMap Action.creation?

/-- The goroutines spawned for entities, in order. -/
def spawned (l : List (Action User Entity)) : List (Nat × Entity) :=
  l.filterMap Action.spawn?

/-- The total amount added to a wait group with `Add`. -/
def added (wg : WaitGroupName) (l : List (Action User Entity)) : Int :=
  (l.map (Action.delta wg)).sum

/-- The console lines, in order. -/
def printed (l : List (Action User Entity)) : List String :=
  l.filterMap Action.line?

/-- The panics raised. -/
def panics (l : List (Action User Entity)) : List Panic :=
  l.filterMap Action.panic?

/-- The actions of the start-up phase: everything up to the end of the loop of
lines 64-104. -/
def Action.isStartup : Action User Entity → Bool
  | .add _ _ => true
  | .println _ => true
  | .goStatusPrinter => true
  | .getUserClient _ => true
  | .create _ _ _ => true
  | .go _ _ => true
  | _ => false

/-- One full iteration of the start-up loop for an ordinal whose user is `entityUser`. -/
def iteration (config : LoadTestConfig) (serverState : ServerState User)
    (fns : List (UserEntityConfig User → Entity)) (entityNum : Nat) (entityUser : User) :
    List (Action User Entity) :=
  .println ("Starting Entity: " ++ toString entityNum)
    :: .getUserClient entityUser
    :: .add .stopWait (fns.length : Int)
    :: createEntities (mkEntityConfig config serverState entityNum entityUser) entityNum 0 fns

end Observations

/-! ## Program order and the invariant of the interleaving semantics -/

section Invariant

variable {User Entity : Type}

/-- The number of entity goroutines a run without panic spawns:
`NumClientEntities` (none when negative) times the number of creation
functions. -/
def total (config : LoadTestConfig) (fns : List (UserEntityConfig User → Entity)) : Nat :=
  config.UserEntitiesConfiguration.NumClientEntities.toNat * fns.length

/-- The inputs on which `StartUserEntities` raises no panic of its own: at
least one user, or no entity requested (so that line 68 is never reached). -/
def NoPanic (config : LoadTestConfig) (serverState : ServerState User) : Prop :=
  1 ≤ serverState.Users.length ∨ config.UserEntitiesConfiguration.NumClientEntities ≤ 0

/-- Only actions of the start-up phase have been performed. -/
def StartupOnly (e : List (Action User Entity)) : Prop :=
  ∀ a ∈ e, a.isStartup = true

/-- What holds of the actions `e` performed so far whenever the orchestrator is
about to perform the action `a`: the program order of `StartUserEntities`,
action by action. -/
def ProgramOrder (config : LoadTestConfig) (serverState : ServerState User)
    (fns : List (UserEntityConfig User → Entity)) (e : List (Action User Entity)) :
    Action User Entity → Prop
  | .add .entityWaitChannel d => d = 1 ∧ e = []
  | .add .printerWait d => d = 1 ∧ e = [.add .entityWaitChannel 1]
  | .add .stopWait d => 0 ≤ d ∧ StartupOnly e
  | .done wg =>
    wg = .entityWaitChannel ∧ StartupOnly e ∧ .add .entityWaitChannel 1 ∈ e ∧
      (spawned e).length = total config fns ∧ (creations e).length = total config fns ∧
      added .stopWait e = (total config fns : Int)
  | .wait .stopWait =>
    .close .stopChan ∈ e ∧ .done .entityWaitChannel ∈ e ∧
      (spawned e).length = total config fns ∧ added .stopWait e = (total config fns : Int)
  | .wait .printerWait =>
    .close .statusPrinterStopChan ∈ e ∧ .wait .stopWait ∈ e ∧ .goStatusPrinter ∈ e
  | .wait .entityWaitChannel => False
  | .println line => line = "DONE!" → .wait .printerWait ∈ e
  | .goStatusPrinter => e = [.add .entityWaitChannel 1, .add .printerWait 1]
  | .getUserClient _ => StartupOnly e
  | .create _ _ _ => StartupOnly e
  | .go _ _ =>
    StartupOnly e ∧ .add .entityWaitChannel 1 ∈ e ∧
      ((spawned e).length : Int) < added .stopWait e
  | .notify => .done .entityWaitChannel ∈ e ∧ .receive ∉ e
  | .receive =>
    .notify ∈ e ∧ .done .entityWaitChannel ∈ e ∧ .receive ∉ e ∧ .close .stopChan ∉ e
  | .close .stopChan => .receive ∈ e ∧ .close .stopChan ∉ e
  | .close .statusPrinterStopChan => .wait .stopWait ∈ e ∧ .close .statusPrinterStopChan ∉ e
  | .close _ => False
  | .panic p =>
    p = .integerDivideByZero ∧ serverState.Users = [] ∧ StartupOnly e ∧
      spawned e = [] ∧ creations e = [] ∧
      1 ≤ config.UserEntitiesConfiguration.NumClientEntities

/-- The number of spawned goroutines that have run to their end. -/
def finished (tasks : List (TaskState Entity)) : Int :=
  (tasks.map fun t => if t.rest.isEmpty then (1 : Int) else 0).sum

/-- The places a goroutine spawned on lines 98-102 can be at: before the
barrier wait, or, only once the barrier has been opened, in the sleep, about
to call or inside `entity.Start()`, or at its end. -/
def TaskShape (config : LoadTestConfig) (opened : Prop) (t : TaskState Entity) : Prop :=
  ∃ entity : Entity,
    (t.rest = goroutine config t.entityNum entity ∧ t.started = false) ∨
    (opened ∧ t.rest = [.sleep (sleepDuration config t.entityNum), .start entity] ∧
      t.started = false) ∨
    (opened ∧ t.rest = [.start entity]) ∨
    (opened ∧ t.rest = [] ∧ t.started = true)

/-- The invariant of the interleaving semantics: how the shared state relates
to what the orchestrator has performed and to the progress of the goroutines. -/
structure Good (config : LoadTestConfig) (serverState : ServerState User)
    (fns : List (UserEntityConfig User → Entity)) (s : State User Entity) : Prop where
  prog : s.executed ++ s.rest = StartUserEntities config serverState fns
  stopWait : s.stopWait = added .stopWait s.executed - finished s.tasks
  balance : ((spawned s.executed).length : Int) ≤ added .stopWait s.executed
  tasks : s.tasks.length = (spawned s.executed).length
  shape : ∀ t ∈ s.tasks, TaskShape config (.done .entityWaitChannel ∈ s.executed) t
  barrier : (s.entityWaitChannel = 0 ∨ s.entityWaitChannel = 1) ∧
    (s.entityWaitChannel = 1 ↔
      .add .entityWaitChannel 1 ∈ s.executed ∧ .done .entityWaitChannel ∉ s.executed)
  barrierAdded : s.tasks ≠ [] → .add .entityWaitChannel 1 ∈ s.executed
  stopChan : s.stopChanClosed = true ↔ .close .stopChan ∈ s.executed
  statusPrinterStopChan :
    s.statusPrinterStopChanClosed = true ↔ .close .statusPrinterStopChan ∈ s.executed
  handler : s.handler = true ↔ .notify ∈ s.executed
  printerNotStarted : s.printer = .notStarted →
    .goStatusPrinter ∉ s.executed ∧
      (s.printerWait = 0 ∨ s.printerWait = 1) ∧
      (s.printerWait = 1 ↔ .add .printerWait 1 ∈ s.executed)
  printerRunning : s.printer = .running → .goStatusPrinter ∈ s.executed ∧ s.printerWait = 1
  printerExited : s.printer = .exited →
    .goStatusPrinter ∈ s.executed ∧ s.printerWait = 0 ∧
      .close .statusPrinterStopChan ∈ s.executed
  output : s.output = printed s.executed
  waited : .wait .stopWait ∈ s.executed →
    s.stopWait = 0 ∧ (∀ t ∈ s.tasks, t.rest = []) ∧ s.tasks.length = total config fns
  flushed : .wait .printerWait ∈ s.executed → s.printer = .exited
  opened : .done .entityWaitChannel ∈ s.executed →
    (spawned s.executed).length = total config fns ∧
      (creations s.executed).length = total config fns
  panicked : ∀ p, s.status = .panicked p →
    p = .integerDivideByZero ∧ serverState.Users = [] ∧
      1 ≤ config.UserEntitiesConfiguration.NumClientEntities
  killed : s.status = .killed → .notify ∉ s.executed

/-- What `receiving` says of a state: the signal handler is registered and the
orchestrator is at the receive of line 111. -/
def AtReceive (s : State User Entity) : Prop :=
  s.receiving = true → s.handler = true ∧ ∃ r, s.rest = .receive :: r

end Invariant

section Order

variable {User Entity : Type}

/-- The program order holds of every action of `l` when `l` is run after `e`. -/
def OrderedFrom (config : LoadTestConfig) (serverState : ServerState User)
    (fns : List (UserEntityConfig User → Entity)) (e l : List (Action User Entity)) : Prop :=
  ∀ e' a r, l = e' ++ a :: r → ProgramOrder config serverState fns (e ++ e') a

end Order

section Work

variable {User Entity : Type}

/-- The number of moves a spawned goroutine still has to make. -/
def taskWork (t : TaskState Entity) : Nat :=
  t.rest.length + (if t.started then 0 else 1)

/-- A bound on the number of moves left before `StartUserEntities` returns:
it decreases with every move of the orchestrator (a spawn adds a goroutine with
four moves; blocking in the receive is a move), of a spawned goroutine and of
the status printer, and with the delivery of a signal to the receive. -/
def work (s : State User Entity) : Nat :=
  7 * s.rest.length + (s.tasks.map taskWork).sum + (if s.printer = .exited then 0 else 1)
    + (if s.receiving then 0 else 1)

end Work

/-! ## The end-to-end scenario of the specification

Three entities, one creation function, two users, a rampup distance of 100 ms. -/

section Scenario

/-- The configuration of the scenario. -/
def scenarioConfig : LoadTestConfig :=
  ⟨⟨3, 100⟩⟩

/-- The server state of the scenario: two users. -/
def scenarioState : ServerState Nat :=
  ⟨[10, 20]⟩

/-- The creation functions of the scenario: one function, whose entity is the
identifier it was configured with. -/
def scenarioFns : List (UserEntityConfig Nat → Int) :=
  [fun entityConfig => entityConfig.Id]

/-- A schedule of the scenario: the orchestrator runs up to the receive of line
111 and blocks in it, the interrupt arrives, the orchestrator closes the stop
channel, every entity goroutine runs to its end, the orchestrator closes the
printer's stop channel, the printer exits, the orchestrator prints its last
line. -/
def scenarioSchedule : List Label :=
  List.replicate 23 .main ++ [.interrupt] ++ List.replicate 3 .main
    ++ List.replicate 4 (.task 0) ++ List.replicate 4 (.task 1) ++ List.replicate 4 (.task 2)
    ++ List.replicate 3 .main ++ [.printer] ++ List.replicate 2 .main

/-- The state the scenario ends in. -/
def scenarioFinal : State Nat Int :=
  (run scenarioConfig (initial scenarioConfig scenarioState scenarioFns) scenarioSchedule).getD
    (initial scenarioConfig scenarioState scenarioFns)

/-- The state of the scenario in which `signal.Notify` (line 110) has just
returned: the 22 actions of lines 51-110 are done, and the orchestrator has
not yet blocked in the receive of line 111. -/
def scenarioNotified : State Nat Int :=
  (run scenarioConfig (initial scenarioConfig scenarioState scenarioFns)
    (List.replicate 22 .main)).getD (initial scenarioConfig scenarioState scenarioFns)

end Scenario

/-! ## The orchestrator goroutine: sequential lemmas -/

section Sequential

variable {User Entity : Type}

theorem selectUser_ok (users : List User) (h : 0 < users.length) (entityNum : Nat) :
    selectUser users entityNum = .ok (users.get ⟨entityNum % users.length, Nat.mod_lt _ h⟩) := by
  unfold selectUser
  rw [if_neg (Nat.pos_iff_ne_zero.mp h)]
  rw [List.getElem?_eq_getElem (Nat.mod_lt _ h)]
  rfl

theorem selectUser_nil (entityNum : Nat) :
    selectUser ([] : List User) entityNum = .error .integerDivideByZero := by
  simp [selectUser]

theorem startLoop_eq (config : LoadTestConfig) (serverState : ServerState User)
    (fns : List (UserEntityConfig User → Entity)) (h : 0 < serverState.Users.length)
    (l : List Nat) :
    startLoop config serverState fns l
      = l.flatMap (fun i => iteration config serverState fns i
          (serverState.Users.get ⟨i % serverState.Users.length, Nat.mod_lt _ h⟩)) ++ shutdown := by
  induction l with
  | nil => simp [startLoop]
  | cons i l ih =>
    simp only [startLoop, selectUser_ok _ h, List.flatMap_cons, iteration, ih]
    simp

theorem creations_createEntities (ec : UserEntityConfig User) (n : Nat)
    (fns : List (UserEntityConfig User → Entity)) (k : Nat) :
    creations (createEntities ec n k fns)
      = (fns.enumFrom k).map (fun p => (p.1, ec, p.2 ec)) := by
  induction fns generalizing k with
  | nil => simp [createEntities, creations]
  | cons f fns ih =>
    have := ih (k + 1)
    simp only [creations] at this ⊢
    simp [createEntities, Action.creation?, this]

theorem spawned_createEntities (ec : UserEntityConfig User) (n : Nat)
    (fns : List (UserEntityConfig User → Entity)) (k : Nat) :
    spawned (createEntities ec n k fns) = fns.map (fun f => (n, f ec)) := by
  induction fns generalizing k with
  | nil => simp [createEntities, spawned]
  | cons f fns ih =>
    have := ih (k + 1)
    simp only [spawned] at this ⊢
    simp [createEntities, Action.spawn?, this]

theorem added_createEntities (wg : WaitGroupName) (ec : UserEntityConfig User) (n : Nat)
    (fns : List (UserEntityConfig User → Entity)) (k : Nat) :
    added wg (createEntities ec n k fns) = 0 := by
  induction fns generalizing k with
  | nil => simp [createEntities, added]
  | cons f fns ih =>
    have := ih (k + 1)
    simp only [added] at this ⊢
    simp [createEntities, Action.delta, this]

theorem added_append (wg : WaitGroupName) (l₁ l₂ : List (Action User Entity)) :
    added wg (l₁ ++ l₂) = added wg l₁ + added wg l₂ := by
  simp [added]

theorem creations_append (l₁ l₂ : List (Action User Entity)) :
    creations (l₁ ++ l₂) = creations l₁ ++ creations l₂ := by
  simp [creations]

theorem spawned_append (l₁ l₂ : List (Action User Entity)) :
    spawned (l₁ ++ l₂) = spawned l₁ ++ spawned l₂ := by
  simp [spawned]

theorem creations_shutdown : creations (shutdown : List (Action User Entity)) = [] := by
  simp [creations, shutdown, Action.creation?]

theorem spawned_shutdown : spawned (shutdown : List (Action User Entity)) = [] := by
  simp [spawned, shutdown, Action.spawn?]

theorem added_shutdown (wg : WaitGroupName) :
    added wg (shutdown : List (Action User Entity)) = 0 := by
  simp [added, shutdown, Action.delta]

theorem creations_flatMap (f : Nat → List (Action User Entity)) (l : List Nat) :
    creations (l.flatMap f) = l.flatMap (fun i => creations (f i)) := by
  induction l with
  | nil => simp [creations]
  | cons i l ih => simp [List.flatMap_cons, creations_append, ih]

theorem spawned_flatMap (f : Nat → List (Action User Entity)) (l : List Nat) :
    spawned (l.flatMap f) = l.flatMap (fun i => spawned (f i)) := by
  induction l with
  | nil => simp [spawned]
  | cons i l ih => simp [List.flatMap_cons, spawned_append, ih]

theorem added_flatMap (wg : WaitGroupName) (f : Nat → List (Action User Entity)) (l : List Nat) :
    added wg (l.flatMap f) = (l.map (fun i => added wg (f i))).sum := by
  induction l with
  | nil => simp [added]
  | cons i l ih => simp [List.flatMap_cons, added_append, ih]

theorem sum_map_const_int (c : Int) (l : List Nat) :
    (l.map (fun _ => c)).sum = (l.length : Int) * c := by
  induction l with
  | nil => simp
  | cons i l ih => simp [ih]; ring

theorem creations_iteration (config : LoadTestConfig) (serverState : ServerState User)
    (fns : List (UserEntityConfig User → Entity)) (i : Nat) (u : User) :
    creations (iteration config serverState fns i u)
      = (fns.enumFrom 0).map
          (fun p => (p.1, mkEntityConfig config serverState i u, p.2 (mkEntityConfig config serverState i u))) := by
  rw [← creations_createEntities _ i]
  simp [iteration, creations, Action.creation?]

theorem spawned_iteration (config : LoadTestConfig) (serverState : ServerState User)
    (fns : List (UserEntityConfig User → Entity)) (i : Nat) (u : User) :
    spawned (iteration config serverState fns i u)
      = fns.map (fun f => (i, f (mkEntityConfig config serverState i u))) := by
  rw [← spawned_createEntities _ i fns 0]
  simp [iteration, spawned, Action.spawn?]

theorem added_iteration (config : LoadTestConfig) (serverState : ServerState User)
    (fns : List (UserEntityConfig User → Entity)) (i : Nat) (u : User) :
    added .stopWait (iteration config serverState fns i u) = fns.length := by
  have h := added_createEntities .stopWait (mkEntityConfig config serverState i u) i fns 0
  simp only [added] at h ⊢
  simp [iteration, Action.delta, h]

/-- With at least one user the program is a prelude, the iterations of the
loop, and the shutdown sequence. -/
theorem StartUserEntities_eq (config : LoadTestConfig) (serverState : ServerState User)
    (fns : List (UserEntityConfig User → Entity)) (h : 0 < serverState.Users.length) :
    StartUserEntities config serverState fns
      = [.add .entityWaitChannel 1, .add .printerWait 1, .goStatusPrinter,
          .println ("------------------------- Starting "
            ++ toString config.UserEntitiesConfiguration.NumClientEntities ++ " entities")]
        ++ ((ordinals config.UserEntitiesConfiguration.NumClientEntities).flatMap
            (fun i => iteration config serverState fns i
              (serverState.Users.get ⟨i % serverState.Users.length, Nat.mod_lt _ h⟩))
          ++ shutdown) := by
  simp [StartUserEntities, startLoop_eq _ _ _ h]

theorem creations_StartUserEntities (config : LoadTestConfig) (serverState : ServerState User)
    (fns : List (UserEntityConfig User → Entity)) (h : 0 < serverState.Users.length) :
    creations (StartUserEntities config serverState fns)
      = (ordinals config.UserEntitiesConfiguration.NumClientEntities).flatMap (fun i =>
          (fns.enumFrom 0).map (fun p =>
            (p.1,
              mkEntityConfig config serverState i
                (serverState.Users.get ⟨i % serverState.Users.length, Nat.mod_lt _ h⟩),
              p.2 (mkEntityConfig config serverState i
                (serverState.Users.get ⟨i % serverState.Users.length, Nat.mod_lt _ h⟩))))) := by
  rw [StartUserEntities_eq _ _ _ h, creations_append, creations_append, creations_flatMap,
    creations_shutdown]
  simp only [creations_iteration]
  simp [creations, Action.creation?]
  
theorem spawned_StartUserEntities (config : LoadTestConfig) (serverState : ServerState User)
    (fns : List (UserEntityConfig User → Entity)) (h : 0 < serverState.Users.length) :
    spawned (StartUserEntities config serverState fns)
      = (ordinals config.UserEntitiesConfiguration.NumClientEntities).flatMap (fun i =>
          fns.map (fun f => (i, f (mkEntityConfig config serverState i
                (serverState.Users.get ⟨i % serverState.Users.length, Nat.mod_lt _ h⟩))))) := by
  rw [StartUserEntities_eq _ _ _ h, spawned_append, spawned_append, spawned_flatMap,
    spawned_shutdown]
  simp only [spawned_iteration]
  simp [spawned, Action.spawn?]

theorem added_StartUserEntities (config : LoadTestConfig) (serverState : ServerState User)
    (fns : List (UserEntityConfig User → Entity)) (h : 0 < serverState.Users.length) :
    added .stopWait (StartUserEntities config serverState fns)
      = ((config.UserEntitiesConfiguration.NumClientEntities.toNat * fns.length : Nat) : Int) := by
  rw [StartUserEntities_eq _ _ _ h, added_append, added_append, added_flatMap,
    added_shutdown]
  simp only [added_iteration, sum_map_const_int, ordinals, List.length_range, added_shutdown]
  simp [added, Action.delta]

theorem panics_append (l₁ l₂ : List (Action User Entity)) :
    panics (l₁ ++ l₂) = panics l₁ ++ panics l₂ := by
  simp [panics]

theorem panics_flatMap (f : Nat → List (Action User Entity)) (l : List Nat) :
    panics (l.flatMap f) = l.flatMap (fun i => panics (f i)) := by
  induction l with
  | nil => simp [panics]
  | cons i l ih => simp [List.flatMap_cons, panics_append, ih]

theorem panics_createEntities (ec : UserEntityConfig User) (n : Nat)
    (fns : List (UserEntityConfig User → Entity)) (k : Nat) :
    panics (createEntities ec n k fns) = [] := by
  induction fns generalizing k with
  | nil => simp [createEntities, panics]
  | cons f fns ih =>
    have := ih (k + 1)
    simp only [panics] at this ⊢
    simp [createEntities, Action.panic?, this]

theorem panics_iteration (config : LoadTestConfig) (serverState : ServerState User)
    (fns : List (UserEntityConfig User → Entity)) (i : Nat) (u : User) :
    panics (iteration config serverState fns i u) = [] := by
  have h := panics_createEntities (mkEntityConfig config serverState i u) i fns 0
  simp only [panics] at h ⊢
  simp [iteration, Action.panic?, h]

theorem panics_StartUserEntities (config : LoadTestConfig) (serverState : ServerState User)
    (fns : List (UserEntityConfig User → Entity)) (h : 0 < serverState.Users.length) :
    panics (StartUserEntities config serverState fns) = [] := by
  rw [StartUserEntities_eq _ _ _ h, panics_append, panics_append, panics_flatMap]
  simp only [panics_iteration]
  simp [panics, Action.panic?, shutdown]

theorem map_fst_enumFrom_eq (fns : List (UserEntityConfig User → Entity)) (g : Nat → Int × Nat)
    (k : Nat) :
    (fns.enumFrom k).map (fun p => g p.1) = (List.range' k fns.length).map g := by
  induction fns generalizing k with
  | nil => simp
  | cons f fns ih => simp [List.range'_succ, ih]

theorem length_flatMap_const {α : Type} (f : Nat → List α) (c : Nat) (h : ∀ i, (f i).length = c)
    (l : List Nat) : (l.flatMap f).length = l.length * c := by
  induction l with
  | nil => simp
  | cons i l ih => simp [List.flatMap_cons, ih, h]; ring

end Sequential

section Durations

theorem wrapInt64_add_mul (x k : Int) : wrapInt64 (x + 2 ^ 64 * k) = wrapInt64 x := by
  unfold wrapInt64
  rw [show x + 2 ^ 64 * k + 2 ^ 63 = x + 2 ^ 63 + 2 ^ 64 * k by ring, Int.add_mul_emod_self_left]

theorem wrapInt64_eq_add (a : Int) : ∃ q : Int, wrapInt64 a = a + 2 ^ 64 * q := by
  refine ⟨-((a + 2 ^ 63) / 2 ^ 64), ?_⟩
  unfold wrapInt64
  omega

theorem wrapInt64_of_range (x : Int) (h₁ : -2 ^ 63 ≤ x) (h₂ : x < 2 ^ 63) : wrapInt64 x = x := by
  unfold wrapInt64
  omega

theorem wrapInt64_range (x : Int) : -2 ^ 63 ≤ wrapInt64 x ∧ wrapInt64 x < 2 ^ 63 := by
  unfold wrapInt64
  omega

theorem mulDuration_wrap_left (a b : Int) : mulDuration (wrapInt64 a) b = wrapInt64 (a * b) := by
  obtain ⟨q, hq⟩ := wrapInt64_eq_add a
  unfold mulDuration
  rw [hq, show (a + 2 ^ 64 * q) * b = a * b + 2 ^ 64 * (q * b) by ring, wrapInt64_add_mul]

theorem mulDuration_wrap_right (a b : Int) : mulDuration a (wrapInt64 b) = wrapInt64 (a * b) := by
  obtain ⟨q, hq⟩ := wrapInt64_eq_add b
  unfold mulDuration
  rw [hq, show a * (b + 2 ^ 64 * q) = a * b + 2 ^ 64 * (a * q) by ring, wrapInt64_add_mul]

theorem rampupDistance_eq (config : LoadTestConfig) :
    rampupDistance config
      = wrapInt64 (config.UserEntitiesConfiguration.EntityRampupDistanceMilliseconds * 1000000) := by
  unfold rampupDistance Duration Millisecond
  rw [mulDuration_wrap_left]

theorem sleepDuration_eq (config : LoadTestConfig) (entityNum : Nat) :
    sleepDuration config entityNum
      = wrapInt64 (config.UserEntitiesConfiguration.EntityRampupDistanceMilliseconds * 1000000
          * (entityNum : Int)) := by
  unfold sleepDuration Duration
  rw [mulDuration_wrap_right, rampupDistance_eq]
  exact mulDuration_wrap_left _ _

end Durations

/-! ## Program order -/

section Order
variable {User Entity : Type}
variable {config : LoadTestConfig} {serverState : ServerState User}
  {fns : List (UserEntityConfig User → Entity)}

theorem orderedFrom_nil (e : List (Action User Entity)) :
    OrderedFrom config serverState fns e [] := by
  intro e' a r h
  simp at h

theorem orderedFrom_cons {e l : List (Action User Entity)} {a : Action User Entity}
    (h₁ : ProgramOrder config serverState fns e a)
    (h₂ : OrderedFrom config serverState fns (e ++ [a]) l) :
    OrderedFrom config serverState fns e (a :: l) := by
  intro e' b r h
  cases e' with
  | nil =>
    simp only [List.nil_append, List.cons.injEq] at h
    obtain ⟨rfl, -⟩ := h
    simpa using h₁
  | cons c e'' =>
    simp only [List.cons_append, List.cons.injEq] at h
    obtain ⟨rfl, h⟩ := h
    have := h₂ e'' b r h
    simpa using this

theorem not_mem_of_startupOnly {e : List (Action User Entity)} (h : StartupOnly e)
    {a : Action User Entity} (ha : a.isStartup = false) : a ∉ e := by
  intro hm
  have := h a hm
  rw [ha] at this
  exact Bool.noConfusion this

theorem startupOnly_append {e : List (Action User Entity)} {a : Action User Entity}
    (h : StartupOnly e) (ha : a.isStartup = true) : StartupOnly (e ++ [a]) := by
  intro b hb
  rcases List.mem_append.mp hb with hb | hb
  · exact h b hb
  · simp only [List.mem_singleton] at hb
    exact hb ▸ ha

theorem starting_ne_done (entityNum : Nat) : "Starting Entity: " ++ toString entityNum ≠ "DONE!" := by
  intro h
  have := congrArg String.length h
  simp [String.length_append] at this
  have h17 : "Starting Entity: ".length = 17 := by decide
  have h5 : "DONE!".length = 5 := by decide
  omega

theorem selectUser_error {users : List User} {entityNum : Nat} {p : Panic}
    (h : selectUser users entityNum = .error p) : p = .integerDivideByZero ∧ users = [] := by
  unfold selectUser at h
  split at h
  · rename_i h0
    simp only [Except.error.injEq] at h
    exact ⟨h.symm, List.length_eq_zero.mp h0⟩
  · rename_i h0
    have hlt : entityNum % users.length < users.length := Nat.mod_lt _ (Nat.pos_of_ne_zero h0)
    rw [List.getElem?_eq_getElem hlt] at h
    simp at h

theorem selectUser_ok_ne_nil {users : List User} {entityNum : Nat} {u : User}
    (h : selectUser users entityNum = .ok u) : users ≠ [] := by
  intro h0
  rw [h0, selectUser_nil] at h
  simp at h

theorem orderedFrom_shutdown {e : List (Action User Entity)} (hS : StartupOnly e)
    (hb : .add .entityWaitChannel 1 ∈ e) (hp : .goStatusPrinter ∈ e)
    (hs : (spawned e).length = total config fns) (hc : (creations e).length = total config fns)
    (ha : added .stopWait e = (total config fns : Int)) :
    OrderedFrom config serverState fns e shutdown := by
  have n1 : Action.receive ∉ e := not_mem_of_startupOnly hS rfl
  have n2 : Action.close .stopChan ∉ e := not_mem_of_startupOnly hS rfl
  have n3 : Action.close .statusPrinterStopChan ∉ e := not_mem_of_startupOnly hS rfl
  unfold shutdown
  refine orderedFrom_cons ?_ (orderedFrom_cons ?_ (orderedFrom_cons ?_ (orderedFrom_cons ?_
    (orderedFrom_cons ?_ (orderedFrom_cons ?_ (orderedFrom_cons ?_ (orderedFrom_cons ?_
    (orderedFrom_cons ?_ (orderedFrom_cons ?_ (orderedFrom_cons ?_ (orderedFrom_cons ?_
    (orderedFrom_nil _)))))))))))) <;>
  simp [ProgramOrder, spawned, creations, added, Action.spawn?, Action.creation?, Action.delta,
    n1, n2, n3, hb, hp, hS] <;>
  simp only [spawned, creations, added] at hs hc ha <;>
  simp [hs, hc, ha]

theorem orderedFrom_createEntities (ec : UserEntityConfig User) (n : Nat)
    (tail : List (Action User Entity)) :
    ∀ (fs : List (UserEntityConfig User → Entity)) (k : Nat) (e : List (Action User Entity)),
      StartupOnly e → .add .entityWaitChannel 1 ∈ e →
      ((spawned e).length : Int) + (fs.length : Int) ≤ added .stopWait e →
      OrderedFrom config serverState fns (e ++ createEntities ec n k fs) tail →
      OrderedFrom config serverState fns e (createEntities ec n k fs ++ tail) := by
  intro fs
  induction fs with
  | nil =>
    intro k e _ _ _ h
    simpa [createEntities] using h
  | cons f fs ih =>
    intro k e hS hb hle h
    simp only [createEntities, List.cons_append]
    have hS₁ : StartupOnly (e ++ [Action.create k ec (f ec)]) := startupOnly_append hS rfl
    have hS₂ : StartupOnly (e ++ [Action.create k ec (f ec)] ++ [Action.go n (f ec)]) :=
      startupOnly_append hS₁ rfl
    refine orderedFrom_cons ?_ (orderedFrom_cons ?_ (ih (k + 1) _ hS₂ ?_ ?_ ?_))
    · exact hS
    · refine ⟨hS₁, by simp [hb], ?_⟩
      simp only [spawned, added, List.length_cons, Nat.cast_add, Nat.cast_one] at hle ⊢
      simp [Action.spawn?, Action.delta]
      omega
    · simp [hb]
    · simp only [spawned, added, List.length_cons, Nat.cast_add, Nat.cast_one] at hle ⊢
      simp [Action.spawn?, Action.delta]
      omega
    · simpa [createEntities] using h

theorem orderedFrom_startLoop :
    ∀ (l : List Nat) (e : List (Action User Entity)),
      StartupOnly e → .add .entityWaitChannel 1 ∈ e → .goStatusPrinter ∈ e →
      (spawned e).length + l.length * fns.length = total config fns →
      (creations e).length + l.length * fns.length = total config fns →
      added .stopWait e + ((l.length * fns.length : Nat) : Int) = (total config fns : Int) →
      (serverState.Users = [] → spawned e = [] ∧ creations e = []) →
      (spawned e).length = (creations e).length →
      ((spawned e).length : Int) = added .stopWait e →
      l.length ≤ config.UserEntitiesConfiguration.NumClientEntities.toNat →
      OrderedFrom config serverState fns e (startLoop config serverState fns l) := by
  intro l
  induction l with
  | nil =>
    intro e hS hb hp hs hc ha _ _ _ _
    simp only [startLoop]
    exact orderedFrom_shutdown hS hb hp (by simpa using hs) (by simpa using hc)
      (by simpa using ha)
  | cons i l ih =>
    intro e hS hb hp hs hc ha hU hsc hsa hlen
    simp only [startLoop]
    refine orderedFrom_cons ?_ ?_
    · intro h
      exact absurd h (starting_ne_done i)
    have hS₁ : StartupOnly (e ++ [Action.println ("Starting Entity: " ++ toString i)]) :=
      startupOnly_append hS rfl
    cases hsel : selectUser serverState.Users i with
    | error p =>
      simp only
      obtain ⟨rfl, h0⟩ := selectUser_error hsel
      refine orderedFrom_cons ?_ (orderedFrom_nil _)
      obtain ⟨h1, h2⟩ := hU h0
      refine ⟨rfl, h0, hS₁, ?_, ?_, ?_⟩
      · simpa [spawned, Action.spawn?] using h1
      · simpa [creations, Action.creation?] using h2
      · simp only [List.length_cons] at hlen
        omega
    | ok u =>
      simp only
      have hne := selectUser_ok_ne_nil hsel
      have hS₂ : StartupOnly (e ++ [Action.println ("Starting Entity: " ++ toString i)]
          ++ [Action.getUserClient u]) := startupOnly_append hS₁ rfl
      have hS₃ : StartupOnly (e ++ [Action.println ("Starting Entity: " ++ toString i)]
          ++ [Action.getUserClient u] ++ [Action.add .stopWait (fns.length : Int)]) :=
        startupOnly_append hS₂ rfl
      refine orderedFrom_cons hS₁ (orderedFrom_cons ⟨by omega, hS₂⟩ ?_)
      refine orderedFrom_createEntities _ _ _ fns 0 _ hS₃ (by simp [hb]) ?_ ?_
      · simp only [spawned, added] at hsa ⊢
        simp [Action.spawn?, Action.delta]
        omega
      · have hS₄ : StartupOnly (e ++ [Action.println ("Starting Entity: " ++ toString i)]
            ++ [Action.getUserClient u] ++ [Action.add .stopWait (fns.length : Int)]
            ++ createEntities (mkEntityConfig config serverState i u) i 0 fns) := by
          intro a ha
          rcases List.mem_append.mp ha with ha | ha
          · exact hS₃ a ha
          · clear * - ha
            generalize (0 : Nat) = k at ha
            induction fns generalizing k with
            | nil => simp [createEntities] at ha
            | cons f fs ihf =>
              simp only [createEntities, List.mem_cons] at ha
              rcases ha with rfl | rfl | ha
              · rfl
              · rfl
              · exact ihf _ ha
        have key_s : spawned (e ++ [Action.println ("Starting Entity: " ++ toString i)]
            ++ [Action.getUserClient u] ++ [Action.add .stopWait (fns.length : Int)]
            ++ createEntities (mkEntityConfig config serverState i u) i 0 fns)
            = spawned e ++ fns.map (fun f => (i, f (mkEntityConfig config serverState i u))) := by
          rw [spawned_append, spawned_createEntities]
          simp [spawned, Action.spawn?]
        have key_c : (creations (e ++ [Action.println ("Starting Entity: " ++ toString i)]
            ++ [Action.getUserClient u] ++ [Action.add .stopWait (fns.length : Int)]
            ++ createEntities (mkEntityConfig config serverState i u) i 0 fns)).length
            = (creations e).length + fns.length := by
          rw [creations_append, creations_createEntities]
          simp [creations, Action.creation?]
        have key_a : added .stopWait (e ++ [Action.println ("Starting Entity: " ++ toString i)]
            ++ [Action.getUserClient u] ++ [Action.add .stopWait (fns.length : Int)]
            ++ createEntities (mkEntityConfig config serverState i u) i 0 fns)
            = added .stopWait e + (fns.length : Int) := by
          rw [added_append, added_createEntities]
          simp [added, Action.delta]
        refine ih _ hS₄ (by simp [hb]) (by simp [hp]) ?_ ?_ ?_ (fun h0 => absurd h0 hne) ?_ ?_
          (by simp only [List.length_cons] at hlen; omega)
        · rw [key_s]
          simp only [List.length_append, List.length_map, List.length_cons] at hs ⊢
          rw [← hs]
          ring
        · rw [key_c]
          simp only [List.length_cons] at hc
          rw [← hc]
          ring
        · rw [key_a]
          simp only [List.length_cons] at ha
          rw [← ha]
          push_cast
          ring
        · rw [key_s, key_c]
          simp [hsc]
        · rw [key_s, key_a]
          simp [hsa]

/-- The program order holds of every action of `StartUserEntities`. -/
theorem program_ordered (config : LoadTestConfig) (serverState : ServerState User)
    (fns : List (UserEntityConfig User → Entity)) {e r : List (Action User Entity)}
    {a : Action User Entity} (h : StartUserEntities config serverState fns = e ++ a :: r) :
    ProgramOrder config serverState fns e a := by
  have key : OrderedFrom config serverState fns [] (StartUserEntities config serverState fns) := by
    unfold StartUserEntities
    refine orderedFrom_cons ⟨rfl, rfl⟩ (orderedFrom_cons ⟨rfl, rfl⟩ (orderedFrom_cons rfl
      (orderedFrom_cons ?_ ?_)))
    · intro h
      exfalso
      have := congrArg String.length h
      simp [String.length_append] at this
      have h1 : "------------------------- Starting ".length = 35 := by decide
      have h5 : "DONE!".length = 5 := by decide
      omega
    · refine orderedFrom_startLoop _ _ ?_ ?_ ?_ ?_ ?_ ?_ ?_ ?_ ?_ (by simp [ordinals])
      · intro a ha
        simp at ha
        rcases ha with rfl | rfl | rfl | rfl <;> rfl
      · simp
      · simp
      · simp [spawned, Action.spawn?, ordinals, total]
      · simp [creations, Action.creation?, ordinals, total]
      · simp [added, Action.delta, ordinals, total]
      · intro _
        simp [spawned, creations, Action.spawn?, Action.creation?]
      · simp [spawned, creations, Action.spawn?, Action.creation?]
      · simp [spawned, added, Action.spawn?, Action.delta]
  simpa using key e a r h

end Order

/-! ## The invariant is preserved by every step -/

section Preservation
variable {User Entity : Type}
variable {config : LoadTestConfig} {serverState : ServerState User}
  {fns : List (UserEntityConfig User → Entity)}

theorem spawned_snoc (e : List (Action User Entity)) (a : Action User Entity) :
    spawned (e ++ [a]) = spawned e ++ a.spawn?.toList := by
  cases h : a.spawn? <;> simp [spawned, List.filterMap_append, h]

theorem creations_snoc (e : List (Action User Entity)) (a : Action User Entity) :
    creations (e ++ [a]) = creations e ++ a.creation?.toList := by
  cases h : a.creation? <;> simp [creations, List.filterMap_append, h]

theorem printed_snoc (e : List (Action User Entity)) (a : Action User Entity) :
    printed (e ++ [a]) = printed e ++ a.line?.toList := by
  cases h : a.line? <;> simp [printed, List.filterMap_append, h]

theorem added_snoc (wg : WaitGroupName) (e : List (Action User Entity)) (a : Action User Entity) :
    added wg (e ++ [a]) = added wg e + a.delta wg := by
  simp [added]

theorem good_initial (config : LoadTestConfig) (serverState : ServerState User)
    (fns : List (UserEntityConfig User → Entity)) :
    Good config serverState fns (initial config serverState fns) := by
  constructor <;> simp [initial, added, finished, spawned, creations, printed]

theorem TaskShape.mono {p q : Prop} (h : p → q) {t : TaskState Entity}
    (ht : TaskShape config p t) : TaskShape config q t := by
  obtain ⟨entity, h1 | h2 | h3 | h4⟩ := ht
  · exact ⟨entity, Or.inl h1⟩
  · exact ⟨entity, Or.inr (Or.inl ⟨h h2.1, h2.2⟩)⟩
  · exact ⟨entity, Or.inr (Or.inr (Or.inl ⟨h h3.1, h3.2⟩))⟩
  · exact ⟨entity, Or.inr (Or.inr (Or.inr ⟨h h4.1, h4.2⟩))⟩

theorem finished_nonneg (l : List (TaskState Entity)) : 0 ≤ finished l := by
  induction l with
  | nil => simp [finished]
  | cons t l ih =>
    simp only [finished, List.map_cons, List.sum_cons] at ih ⊢
    split <;> omega

theorem finished_le (l : List (TaskState Entity)) : finished l ≤ (l.length : Int) := by
  induction l with
  | nil => simp [finished]
  | cons t l ih =>
    simp only [finished, List.map_cons, List.sum_cons, List.length_cons, Nat.cast_add,
      Nat.cast_one] at ih ⊢
    split <;> omega

theorem finished_append (l₁ l₂ : List (TaskState Entity)) :
    finished (l₁ ++ l₂) = finished l₁ + finished l₂ := by
  simp [finished]

theorem all_finished_of_eq (l : List (TaskState Entity)) (h : finished l = (l.length : Int)) :
    ∀ t ∈ l, t.rest = [] := by
  induction l with
  | nil => simp
  | cons t l ih =>
    have hle := finished_le l
    simp only [finished, List.map_cons, List.sum_cons, List.length_cons, Nat.cast_add,
      Nat.cast_one] at h hle ih ⊢
    intro t' ht'
    by_cases ht : t.rest.isEmpty = true
    · rw [if_pos ht] at h
      rcases List.mem_cons.mp ht' with rfl | hm
      · exact List.isEmpty_iff.mp ht
      · exact ih (by omega) t' hm
    · rw [if_neg ht] at h
      omega

set_option linter.unusedTactic false in
set_option linter.unreachableTactic false in
theorem good_main {s s₁ : State User Entity} {a : Action User Entity}
    {r : List (Action User Entity)} (hg : Good config serverState fns s)
    (hst : s.status = .running) (hrest : s.rest = a :: r)
    (hex : exec config s a = some s₁) : Good config serverState fns s₁.advance := by
  have ho : ProgramOrder config serverState fns s.executed a :=
    program_ordered config serverState fns (by rw [← hg.prog, hrest])
  have hprog := hg.prog
  rw [hrest] at hprog
  have hfin := finished_le s.tasks
  have hfin0 := finished_nonneg s.tasks
  obtain ⟨-, hsw, hbal, htl, hshape, hbar, hbadd, hsc, hspc, hh, hpn, hpr, hpe, hout, hwaited,
    hflushed, hopened, hpan, hkill⟩ := hg
  cases a with
  | println line =>
    simp only [exec, collaboratorCall, TmpLogger.Println, Option.some.injEq] at hex
    subst hex
    simp only [ProgramOrder] at ho
    simp only [State.advance, hst, hrest, ne_eq, not_true_eq_false, ite_false]
    constructor
    all_goals simp only [added_snoc, spawned_snoc, creations_snoc, printed_snoc, Action.delta,
        Action.spawn?, Action.creation?, Action.line?, Option.toList, List.append_nil,
        List.mem_append, List.mem_singleton, add_zero, reduceCtorEq, or_false, List.append_assoc,
        List.singleton_append, ite_true, ite_false, Action.add.injEq, Action.done.injEq,
        Action.wait.injEq, Action.close.injEq, false_and, or_true, true_and, and_true, and_false]
    all_goals first | assumption | (simp; done) | (simp [*]; done) | skip
  | getUserClient u =>
    simp only [exec, collaboratorCall, TmpLogger.Println, Option.some.injEq] at hex
    subst hex
    simp only [ProgramOrder] at ho
    simp only [State.advance, hst, hrest, ne_eq, not_true_eq_false, ite_false]
    constructor
    all_goals simp only [added_snoc, spawned_snoc, creations_snoc, printed_snoc, Action.delta,
        Action.spawn?, Action.creation?, Action.line?, Option.toList, List.append_nil,
        List.mem_append, List.mem_singleton, add_zero, reduceCtorEq, or_false, List.append_assoc,
        List.singleton_append, ite_true, ite_false, Action.add.injEq, Action.done.injEq,
        Action.wait.injEq, Action.close.injEq, false_and, or_true, true_and, and_true, and_false]
    all_goals first | assumption | (simp; done) | (simp [*]; done) | skip
  | create fn ec entity =>
    simp only [exec, collaboratorCall, TmpLogger.Println, Option.some.injEq] at hex
    subst hex
    simp only [ProgramOrder] at ho
    simp only [State.advance, hst, hrest, ne_eq, not_true_eq_false, ite_false]
    constructor
    all_goals simp only [added_snoc, spawned_snoc, creations_snoc, printed_snoc, Action.delta,
        Action.spawn?, Action.creation?, Action.line?, Option.toList, List.append_nil,
        List.mem_append, List.mem_singleton, add_zero, reduceCtorEq, or_false, List.append_assoc,
        List.singleton_append, ite_true, ite_false, Action.add.injEq, Action.done.injEq,
        Action.wait.injEq, Action.close.injEq, false_and, or_true, true_and, and_true, and_false]
    all_goals first | assumption | (simp; done) | (simp [*]; done) | skip
    case opened =>
      intro h
      exact absurd h (not_mem_of_startupOnly ho rfl)
  | go n entity =>
    simp only [exec, collaboratorCall, TmpLogger.Println, Option.some.injEq] at hex
    subst hex
    simp only [ProgramOrder] at ho
    simp only [State.advance, hst, hrest, ne_eq, not_true_eq_false, ite_false]
    constructor
    all_goals simp only [added_snoc, spawned_snoc, creations_snoc, printed_snoc, Action.delta,
        Action.spawn?, Action.creation?, Action.line?, Option.toList, List.append_nil,
        List.mem_append, List.mem_singleton, add_zero, reduceCtorEq, or_false, List.append_assoc,
        List.singleton_append, ite_true, ite_false, Action.add.injEq, Action.done.injEq,
        Action.wait.injEq, Action.close.injEq, false_and, or_true, true_and, and_true, and_false]
    all_goals first | assumption | (simp; done) | (simp [*]; done) | skip
    case stopWait =>
      rw [finished_append]
      simpa [finished, goroutine] using hsw
    case balance =>
      simp only [List.length_append, List.length_singleton, Nat.cast_add, Nat.cast_one]
      omega
    case shape =>
      intro t ht
      rcases ht with ht | rfl
      · exact hshape t ht
      · exact ⟨entity, Or.inl ⟨rfl, rfl⟩⟩
    case waited =>
      intro h
      exact absurd h (not_mem_of_startupOnly ho.1 rfl)
    case opened =>
      intro h
      exact absurd h (not_mem_of_startupOnly ho.1 rfl)
  | notify =>
    simp only [exec, collaboratorCall, TmpLogger.Println, Option.some.injEq] at hex
    subst hex
    simp only [ProgramOrder] at ho
    simp only [State.advance, hst, hrest, ne_eq, not_true_eq_false, ite_false]
    constructor
    all_goals simp only [added_snoc, spawned_snoc, creations_snoc, printed_snoc, Action.delta,
        Action.spawn?, Action.creation?, Action.line?, Option.toList, List.append_nil,
        List.mem_append, List.mem_singleton, add_zero, reduceCtorEq, or_false, List.append_assoc,
        List.singleton_append, ite_true, ite_false, Action.add.injEq, Action.done.injEq,
        Action.wait.injEq, Action.close.injEq, false_and, or_true, true_and, and_true, and_false]
    all_goals first | assumption | (simp; done) | (simp [*]; done) | skip
  | goStatusPrinter =>
    simp only [exec, collaboratorCall, TmpLogger.Println, Option.some.injEq] at hex
    subst hex
    simp only [ProgramOrder] at ho
    simp only [State.advance, hst, hrest, ne_eq, not_true_eq_false, ite_false]
    constructor
    all_goals simp only [added_snoc, spawned_snoc, creations_snoc, printed_snoc, Action.delta,
        Action.spawn?, Action.creation?, Action.line?, Option.toList, List.append_nil,
        List.mem_append, List.mem_singleton, add_zero, reduceCtorEq, or_false, List.append_assoc,
        List.singleton_append, ite_true, ite_false, Action.add.injEq, Action.done.injEq,
        Action.wait.injEq, Action.close.injEq, false_and, or_true, true_and, and_true, and_false]
    all_goals first | assumption | (simp; done) | (simp [*]; done) | skip
    case printerRunning =>
      intro _
      cases hp : s.printer with
      | notStarted =>
        have := (hpn hp).2.2
        rw [ho] at this
        simpa using this
      | running =>
        have := (hpr hp).1
        rw [ho] at this
        simp at this
      | exited =>
        have := (hpe hp).1
        rw [ho] at this
        simp at this
  | receive =>
    simp [exec] at hex
  | panic p =>
    simp only [exec, Option.some.injEq] at hex
    subst hex
    simp only [State.advance, ne_eq, reduceCtorEq, not_false_eq_true, ite_true]
    simp only [ProgramOrder] at ho
    constructor
    all_goals dsimp only
    all_goals first | assumption | (simp; done) | skip
    · rw [hrest]
      exact hprog
    · intro p' hp'
      simp only [Status.panicked.injEq] at hp'
      subst hp'
      exact ⟨ho.1, ho.2.1, ho.2.2.2.2.2⟩
  | wait wg =>
    simp only [exec] at hex
    split at hex
    · rename_i h0
      simp only [Option.some.injEq] at hex
      subst hex
      cases wg with
      | stopWait =>
        simp only [State.counter] at h0
        simp only [ProgramOrder] at ho
        simp only [State.advance, hst, hrest, ne_eq, not_true_eq_false, ite_false]
        constructor
        all_goals simp only [added_snoc, spawned_snoc, creations_snoc, printed_snoc, Action.delta,
            Action.spawn?, Action.creation?, Action.line?, Option.toList, List.append_nil,
            List.mem_append, List.mem_singleton, add_zero, reduceCtorEq, or_false, List.append_assoc,
            List.singleton_append, ite_true, ite_false, Action.add.injEq, Action.done.injEq,
            Action.wait.injEq, Action.close.injEq, false_and, or_true, true_and, and_true, and_false]
        all_goals first | assumption | (simp; done) | (simp [*]; done) | skip
        case waited =>
          intro _
          have hf : finished s.tasks = (s.tasks.length : Int) := by
            rw [htl, ho.2.2.1]
            omega
          refine ⟨h0, all_finished_of_eq _ hf, ?_⟩
          rw [htl, ho.2.2.1]
      | printerWait =>
        simp only [State.counter] at h0
        simp only [ProgramOrder] at ho
        simp only [State.advance, hst, hrest, ne_eq, not_true_eq_false, ite_false]
        constructor
        all_goals simp only [added_snoc, spawned_snoc, creations_snoc, printed_snoc, Action.delta,
            Action.spawn?, Action.creation?, Action.line?, Option.toList, List.append_nil,
            List.mem_append, List.mem_singleton, add_zero, reduceCtorEq, or_false, List.append_assoc,
            List.singleton_append, ite_true, ite_false, Action.add.injEq, Action.done.injEq,
            Action.wait.injEq, Action.close.injEq, false_and, or_true, true_and, and_true, and_false]
        all_goals first | assumption | (simp; done) | (simp [*]; done) | skip
        case flushed =>
          intro _
          cases hp : s.printer with
          | notStarted => exact absurd ho.2.2 (hpn hp).1
          | running =>
            have := (hpr hp).2
            omega
          | exited => rfl
      | entityWaitChannel => exact ho.elim
    · simp at hex
  | close c =>
    simp only [exec, Option.some.injEq] at hex
    cases c with
    | stopChan =>
      simp only [ProgramOrder] at ho
      have hnc : s.stopChanClosed = false := by
        cases hc : s.stopChanClosed with
        | false => rfl
        | true => exact absurd (hsc.mp hc) ho.2
      simp only [State.closeChan, State.closed, hnc, Bool.false_eq_true, ite_false] at hex
      subst hex
      simp only [State.advance, hst, hrest, ne_eq, not_true_eq_false, ite_false]
      constructor
      all_goals simp only [added_snoc, spawned_snoc, creations_snoc, printed_snoc, Action.delta,
          Action.spawn?, Action.creation?, Action.line?, Option.toList, List.append_nil,
          List.mem_append, List.mem_singleton, add_zero, reduceCtorEq, or_false, List.append_assoc,
          List.singleton_append, ite_true, ite_false, Action.add.injEq, Action.done.injEq,
          Action.wait.injEq, Action.close.injEq, false_and, or_true, true_and, and_true, and_false]
      all_goals first | assumption | (simp; done) | (simp [*]; done) | skip
    | statusPrinterStopChan =>
      simp only [ProgramOrder] at ho
      have hnc : s.statusPrinterStopChanClosed = false := by
        cases hc : s.statusPrinterStopChanClosed with
        | false => rfl
        | true => exact absurd (hspc.mp hc) ho.2
      simp only [State.closeChan, State.closed, hnc, Bool.false_eq_true, ite_false] at hex
      subst hex
      simp only [State.advance, hst, hrest, ne_eq, not_true_eq_false, ite_false]
      constructor
      all_goals simp only [added_snoc, spawned_snoc, creations_snoc, printed_snoc, Action.delta,
          Action.spawn?, Action.creation?, Action.line?, Option.toList, List.append_nil,
          List.mem_append, List.mem_singleton, add_zero, reduceCtorEq, or_false, List.append_assoc,
          List.singleton_append, ite_true, ite_false, Action.add.injEq, Action.done.injEq,
          Action.wait.injEq, Action.close.injEq, false_and, or_true, true_and, and_true, and_false]
      all_goals first | assumption | (simp; done) | (simp [*]; done) | skip
      case printerExited =>
        intro hp
        exact ⟨(hpe hp).1, (hpe hp).2.1⟩
    | statusChannel => exact absurd ho (by simp [ProgramOrder])
    | interrupChannel => exact absurd ho (by simp [ProgramOrder])
  | done wg =>
    simp only [exec, Option.some.injEq] at hex
    simp only [ProgramOrder] at ho
    obtain ⟨rfl, hS, hadd, hcs, hcc, hca⟩ := ho
    have nd : Action.done .entityWaitChannel ∉ s.executed := not_mem_of_startupOnly hS rfl
    have hewc : s.entityWaitChannel = 1 := hbar.2.mpr ⟨hadd, nd⟩
    simp only [State.wgAdd, State.counter, State.setCounter, hewc] at hex
    norm_num at hex
    subst hex
    simp only [State.advance, hst, hrest, ne_eq, not_true_eq_false, ite_false]
    constructor
    all_goals simp only [added_snoc, spawned_snoc, creations_snoc, printed_snoc, Action.delta,
        Action.spawn?, Action.creation?, Action.line?, Option.toList, List.append_nil,
        List.mem_append, List.mem_singleton, add_zero, reduceCtorEq, or_false, List.append_assoc,
        List.singleton_append, ite_true, ite_false, Action.add.injEq, Action.done.injEq,
        Action.wait.injEq, Action.close.injEq, false_and, or_true, true_and, and_true, and_false]
    all_goals first | assumption | (simp; done) | (simp [*]; done) | skip
    case shape =>
      intro t ht
      exact TaskShape.mono (fun _ => trivial) (hshape t ht)
  | add wg d =>
    simp only [exec, Option.some.injEq] at hex
    cases wg with
    | entityWaitChannel =>
      simp only [ProgramOrder] at ho
      obtain ⟨rfl, he⟩ := ho
      have hewc : s.entityWaitChannel = 0 := by
        rcases hbar.1 with h | h
        · exact h
        · have := (hbar.2.mp h).1
          rw [he] at this
          simp at this
      simp only [State.wgAdd, State.counter, State.setCounter, hewc] at hex
      norm_num at hex
      subst hex
      simp only [State.advance, hst, hrest, ne_eq, not_true_eq_false, ite_false]
      constructor
      all_goals simp only [added_snoc, spawned_snoc, creations_snoc, printed_snoc, Action.delta,
          Action.spawn?, Action.creation?, Action.line?, Option.toList, List.append_nil,
          List.mem_append, List.mem_singleton, add_zero, reduceCtorEq, or_false, List.append_assoc,
          List.singleton_append, ite_true, ite_false, Action.add.injEq, Action.done.injEq,
          Action.wait.injEq, Action.close.injEq, false_and, or_true, true_and, and_true, and_false]
      all_goals first | assumption | (simp; done) | (simp [*]; done) | skip
    | printerWait =>
      simp only [ProgramOrder] at ho
      obtain ⟨rfl, he⟩ := ho
      have hnp : s.printer = .notStarted := by
        cases hp : s.printer with
        | notStarted => rfl
        | running =>
          have := (hpr hp).1
          rw [he] at this
          simp at this
        | exited =>
          have := (hpe hp).1
          rw [he] at this
          simp at this
      have hpw : s.printerWait = 0 := by
        rcases (hpn hnp).2.1 with h | h
        · exact h
        · have := (hpn hnp).2.2.mp h
          rw [he] at this
          simp at this
      simp only [State.wgAdd, State.counter, State.setCounter, hpw] at hex
      norm_num at hex
      subst hex
      simp only [State.advance, hst, hrest, ne_eq, not_true_eq_false, ite_false]
      constructor
      all_goals simp only [added_snoc, spawned_snoc, creations_snoc, printed_snoc, Action.delta,
          Action.spawn?, Action.creation?, Action.line?, Option.toList, List.append_nil,
          List.mem_append, List.mem_singleton, add_zero, reduceCtorEq, or_false, List.append_assoc,
          List.singleton_append, ite_true, ite_false, Action.add.injEq, Action.done.injEq,
          Action.wait.injEq, Action.close.injEq, false_and, or_true, true_and, and_true, and_false]
      all_goals first | assumption | (simp; done) | (simp [*]; done) | skip
    | stopWait =>
      simp only [ProgramOrder] at ho
      obtain ⟨hd, hS⟩ := ho
      have hnn : ¬ (s.stopWait + d < 0) := by omega
      simp only [State.wgAdd, State.counter, State.setCounter, hnn, ite_false] at hex
      subst hex
      simp only [State.advance, hst, hrest, ne_eq, not_true_eq_false, ite_false]
      constructor
      all_goals simp only [added_snoc, spawned_snoc, creations_snoc, printed_snoc, Action.delta,
          Action.spawn?, Action.creation?, Action.line?, Option.toList, List.append_nil,
          List.mem_append, List.mem_singleton, add_zero, reduceCtorEq, or_false, List.append_assoc,
          List.singleton_append, ite_true, ite_false, Action.add.injEq, Action.done.injEq,
          Action.wait.injEq, Action.close.injEq, false_and, or_true, true_and, and_true, and_false]
      all_goals first | assumption | (simp; done) | (simp [*]; done) | skip
      case stopWait =>
        omega
      case balance =>
        omega
      case waited =>
        intro h
        exact absurd h (not_mem_of_startupOnly hS rfl)

/-- The invariant does not depend on whether the orchestrator is blocked in
the receive. -/
theorem good_receiving {s : State User Entity} (hg : Good config serverState fns s) (b : Bool) :
    Good config serverState fns { s with receiving := b } := by
  obtain ⟨hprog, hsw, hbal, htl, hshape, hbar, hbadd, hsc, hspc, hh, hpn, hpr, hpe, hout,
    hwaited, hflushed, hopened, hpan, hkill⟩ := hg
  exact ⟨hprog, hsw, hbal, htl, hshape, hbar, hbadd, hsc, hspc, hh, hpn, hpr, hpe, hout,
    hwaited, hflushed, hopened, hpan, hkill⟩

set_option linter.unusedTactic false in
set_option linter.unreachableTactic false in
theorem good_receive {s : State User Entity} {r : List (Action User Entity)}
    (hg : Good config serverState fns s) (hst : s.status = .running)
    (hrest : s.rest = .receive :: r) : Good config serverState fns s.advance := by
  have hprog := hg.prog
  rw [hrest] at hprog
  obtain ⟨-, hsw, hbal, htl, hshape, hbar, hbadd, hsc, hspc, hh, hpn, hpr, hpe, hout,
    hwaited, hflushed, hopened, hpan, hkill⟩ := hg
  simp only [State.advance, hst, hrest, ne_eq, not_true_eq_false, ite_false]
  constructor
  all_goals simp only [added_snoc, spawned_snoc, creations_snoc, printed_snoc,
    Action.delta, Action.spawn?, Action.creation?, Action.line?, Option.toList,
    List.append_nil, List.mem_append, List.mem_singleton, add_zero, reduceCtorEq, or_false,
    List.append_assoc, List.singleton_append, ite_true, ite_false, Action.add.injEq,
    Action.done.injEq, Action.wait.injEq, Action.close.injEq, false_and, or_true, true_and,
    and_true, and_false]
  all_goals first | assumption | (simp; done) | (simp [*]; done) | skip

theorem good_interrupt {s s' : State User Entity} (hg : Good config serverState fns s)
    (hst : s.status = .running) (hstep : stepInterrupt s = some s') :
    Good config serverState fns s' := by
  unfold stepInterrupt at hstep
  by_cases hh : s.handler = true
  · rw [if_pos hh] at hstep
    cases hrest : s.rest with
    | nil =>
      rw [hrest] at hstep
      simp only [Option.some.injEq] at hstep
      exact hstep ▸ hg
    | cons a r =>
      rw [hrest] at hstep
      cases a with
      | receive =>
        by_cases hrc : s.receiving = true
        · simp only [hrc, ite_true, Option.some.injEq] at hstep
          rw [← hrest] at hstep
          subst hstep
          exact good_receive (good_receiving hg false) hst hrest
        · simp only [hrc, Bool.false_eq_true, ite_false, Option.some.injEq] at hstep
          exact hstep ▸ hg
      | _ =>
        simp only [Option.some.injEq] at hstep
        exact hstep ▸ hg
  · rw [if_neg hh] at hstep
    simp only [Option.some.injEq] at hstep
    subst hstep
    obtain ⟨hprog, hsw, hbal, htl, hshape, hbar, hbadd, hsc, hspc, hh', hpn, hpr, hpe, hout,
      hwaited, hflushed, hopened, hpan, hkill⟩ := hg
    constructor
    all_goals dsimp only
    all_goals first | assumption | (simp; done) | skip
    · intro _ hn
      exact hh (hh'.mpr hn)

theorem good_printer {s s' : State User Entity} (hg : Good config serverState fns s)
    (hstep : stepPrinter s = some s') : Good config serverState fns s' := by
  unfold stepPrinter at hstep
  split at hstep
  · rename_i h
    obtain ⟨hrun, hclosed⟩ := h
    obtain ⟨hprog, hsw, hbal, htl, hshape, hbar, hbadd, hsc, hspc, hh', hpn, hpr, hpe, hout,
      hwaited, hflushed, hopened, hpan, hkill⟩ := hg
    have hpw := (hpr hrun).2
    simp only [State.wgAdd, State.counter, State.setCounter, hpw] at hstep
    norm_num at hstep
    subst hstep
    constructor
    all_goals dsimp only
    all_goals first | assumption | (simp; done) | skip
    · intro _
      exact ⟨(hpr hrun).1, rfl, hspc.mp hclosed⟩
  · simp at hstep

theorem finished_set (l : List (TaskState Entity)) (i : Nat) (t t' : TaskState Entity)
    (h : l[i]? = some t) :
    finished (l.set i t')
      = finished l - (if t.rest.isEmpty then 1 else 0) + (if t'.rest.isEmpty then 1 else 0) := by
  induction l generalizing i with
  | nil => simp at h
  | cons x l ih =>
    cases i with
    | zero =>
      simp only [List.getElem?_cons_zero, Option.some.injEq] at h
      subst h
      simp only [finished, List.set_cons_zero, List.map_cons, List.sum_cons]
      omega
    | succ i =>
      simp only [List.getElem?_cons_succ] at h
      have := ih i h
      simp only [finished, List.set_cons_succ, List.map_cons, List.sum_cons] at this ⊢
      omega

/-- A move of a spawned goroutine that has not yet run to its end. -/
theorem good_task_update {s : State User Entity} (hg : Good config serverState fns s)
    {i : Nat} {t u : TaskState Entity} {w : Int} (hi : s.tasks[i]? = some t)
    (ht : t.rest ≠ [])
    (hshape : TaskShape config (.done .entityWaitChannel ∈ s.executed) u)
    (hsw : w = s.stopWait - (if u.rest.isEmpty then 1 else 0)) :
    Good config serverState fns { s with tasks := s.tasks.set i u, stopWait := w } := by
  have htmem : t ∈ s.tasks := List.getElem?_mem hi
  have hte : t.rest.isEmpty = false := by
    cases h : t.rest with
    | nil => exact absurd h ht
    | cons _ _ => rfl
  obtain ⟨hprog, hsw', hbal, htl, hsh, hbar, hbadd, hsc, hspc, hh', hpn, hpr, hpe, hout,
    hwaited, hflushed, hopened, hpan, hkill⟩ := hg
  constructor
  all_goals dsimp only
  all_goals first | assumption | skip
  · rw [finished_set _ _ _ _ hi, hte, hsw, hsw']
    simp only [Bool.false_eq_true, ite_false]
    omega
  · simpa using htl
  · intro x hx
    rcases List.mem_or_eq_of_mem_set hx with hx | rfl
    · exact hsh x hx
    · exact hshape
  · intro hne
    apply hbadd
    intro h0
    rw [h0] at htmem
    simp at htmem
  · intro hw
    exact absurd ((hwaited hw).2.1 t htmem) ht

theorem good_task {s s' : State User Entity} (hg : Good config serverState fns s) {i : Nat}
    (hstep : stepTask s i = some s') : Good config serverState fns s' := by
  unfold stepTask at hstep
  cases hi : s.tasks[i]? with
  | none => simp [hi] at hstep
  | some t =>
    rw [hi] at hstep
    simp only at hstep
    have htmem : t ∈ s.tasks := List.getElem?_mem hi
    have hne : s.tasks ≠ [] := by
      intro h0
      rw [h0] at htmem
      simp at htmem
    obtain ⟨entity, hsh⟩ := hg.shape t htmem
    cases hr : t.rest with
    | nil => simp [hr] at hstep
    | cons st rest =>
      rw [hr] at hstep
      have htne : t.rest ≠ [] := by simp [hr]
      cases st with
      | waitBarrier =>
        simp only at hstep
        split at hstep
        · rename_i h0
          simp only [Option.some.injEq] at hstep
          subst hstep
          have hopen : Action.done .entityWaitChannel ∈ s.executed := by
            by_contra hnd
            have := hg.barrier.2.mpr ⟨hg.barrierAdded hne, hnd⟩
            omega
          have hrest : rest = [.sleep (sleepDuration config t.entityNum), .start entity] ∧
              t.started = false := by
            rcases hsh with h | h | h | h
            · rw [hr, goroutine] at h
              simp only [List.cons.injEq, true_and] at h
              exact ⟨h.1, h.2⟩
            · rw [hr] at h
              simp at h
            · rw [hr] at h
              simp at h
            · rw [hr] at h
              simp at h
          have := good_task_update (u := { t with rest := rest }) (w := s.stopWait) hg hi htne
            ⟨entity, Or.inr (Or.inl ⟨hopen, hrest.1, hrest.2⟩)⟩ (by simp [hrest.1])
          exact this
        · simp at hstep
      | sleep d =>
        simp only [Option.some.injEq] at hstep
        subst hstep
        have hrest : Action.done .entityWaitChannel ∈ s.executed ∧ rest = [.start entity] := by
          rcases hsh with h | h | h | h
          · rw [hr, goroutine] at h
            simp at h
          · rw [hr] at h
            simp only [List.cons.injEq] at h
            exact ⟨h.1, h.2.1.2⟩
          · rw [hr] at h
            simp at h
          · rw [hr] at h
            simp at h
        have := good_task_update (u := { t with rest := rest }) (w := s.stopWait) hg hi htne
          ⟨entity, Or.inr (Or.inr (Or.inl ⟨hrest.1, hrest.2⟩))⟩ (by simp [hrest.2])
        exact this
      | start e =>
        have hrest : Action.done .entityWaitChannel ∈ s.executed ∧ rest = [] ∧ e = entity := by
          rcases hsh with h | h | h | h
          · rw [hr, goroutine] at h
            simp at h
          · rw [hr] at h
            simp at h
          · rw [hr] at h
            simp only [List.cons.injEq, TaskStep.start.injEq] at h
            exact ⟨h.1, h.2.2, h.2.1⟩
          · rw [hr] at h
            simp at h
        obtain ⟨hopen, rfl, rfl⟩ := hrest
        simp only at hstep
        split at hstep
        · rename_i hstarted
          simp only [Option.some.injEq] at hstep
          have hpos : 1 ≤ s.stopWait := by
            have h1 := hg.stopWait
            have h2 := hg.balance
            have h3 := hg.tasks
            have h4 := finished_set s.tasks i t { t with rest := [] } hi
            have h5 := finished_le (s.tasks.set i { t with rest := [] })
            simp only [hr, List.isEmpty_cons, List.isEmpty_nil, Bool.false_eq_true, ite_false,
              ite_true, List.length_set] at h4 h5
            omega
          have hnn : ¬ (s.stopWait + -1 < 0) := by omega
          simp only [startReturns, State.wgAdd, State.counter, State.setCounter, hnn,
            ite_false] at hstep
          subst hstep
          have := good_task_update (u := { t with rest := [] }) (w := s.stopWait + -1) hg hi
            htne ⟨e, Or.inr (Or.inr (Or.inr ⟨hopen, rfl, hstarted⟩))⟩ (by simp; omega)
          exact this
        · simp only [Option.some.injEq] at hstep
          subst hstep
          have := good_task_update (u := { t with started := true }) (w := s.stopWait) hg hi
            htne ⟨e, Or.inr (Or.inr (Or.inl ⟨hopen, hr⟩))⟩ (by simp [hr])
          rw [hr] at this
          exact this

/-- A move of the orchestrator: it blocks in the receive of line 111, or it
performs the action it is at. -/
theorem step_main_inv {s s' : State User Entity} (hstep : step config s .main = some s') :
    s.status = .running ∧ ∃ a r, s.rest = a :: r ∧
      ((a = .receive ∧ s.receiving = false ∧ s' = { s with receiving := true }) ∨
        ∃ s₁, exec config s a = some s₁ ∧ s' = s₁.advance) := by
  unfold step at hstep
  split at hstep
  · simp at hstep
  · rename_i hst
    have hst : s.status = .running := by simpa using hst
    refine ⟨hst, ?_⟩
    simp only at hstep
    cases hrest : s.rest with
    | nil => simp [hrest] at hstep
    | cons a r =>
      rw [hrest] at hstep
      refine ⟨a, r, rfl, ?_⟩
      cases a with
      | receive =>
        left
        by_cases hrc : s.receiving = true
        · simp [hrc] at hstep
        · simp only [hrc, Bool.false_eq_true, ite_false, Option.some.injEq] at hstep
          exact ⟨rfl, by simpa using hrc, hstep.symm⟩
      | _ =>
        right
        simp only [Option.map_eq_some'] at hstep
        obtain ⟨s₁, hex, rfl⟩ := hstep
        exact ⟨s₁, hex, rfl⟩

/-- An action that does not block is a move of the orchestrator. -/
theorem step_main_of_exec {s s₁ : State User Entity} {a : Action User Entity}
    {r : List (Action User Entity)} (hst : s.status = .running) (hrest : s.rest = a :: r)
    (hex : exec config s a = some s₁) : step config s .main = some s₁.advance := by
  cases a with
  | receive => simp [exec] at hex
  | _ => simp [step, hst, hrest, hex]

theorem good_step {s s' : State User Entity} {l : Label}
    (hg : Good config serverState fns s) (hstep : step config s l = some s') :
    Good config serverState fns s' := by
  cases l with
  | main =>
    obtain ⟨hst, a, r, hrest, h | ⟨s₁, hex, rfl⟩⟩ := step_main_inv hstep
    · rw [h.2.2]
      exact good_receiving hg true
    · exact good_main hg hst hrest hex
  | task i =>
    unfold step at hstep
    split at hstep
    · simp at hstep
    · exact good_task hg hstep
  | printer =>
    unfold step at hstep
    split at hstep
    · simp at hstep
    · exact good_printer hg hstep
  | interrupt =>
    unfold step at hstep
    split at hstep
    · simp at hstep
    · rename_i hst
      exact good_interrupt hg (by simpa using hst) hstep

theorem reachable_good {s : State User Entity}
    (h : Reachable config serverState fns s) : Good config serverState fns s := by
  induction h with
  | init => exact good_initial config serverState fns
  | next l _ hstep ih => exact good_step ih hstep

end Preservation

/-! ## Progress: the run can always be completed -/

section Progress
variable {User Entity : Type}
variable {config : LoadTestConfig} {serverState : ServerState User}
  {fns : List (UserEntityConfig User → Entity)}

theorem finished_eq_of_all (l : List (TaskState Entity)) (h : ∀ t ∈ l, t.rest = []) :
    finished l = (l.length : Int) := by
  induction l with
  | nil => simp [finished]
  | cons t l ih =>
    have h1 := h t (List.mem_cons_self _ _)
    have h2 := ih (fun x hx => h x (List.mem_cons_of_mem _ hx))
    simp only [finished, List.map_cons, List.sum_cons, List.length_cons, Nat.cast_add,
      Nat.cast_one] at h2 ⊢
    rw [h1]
    simp only [List.isEmpty_nil, ite_true]
    omega

theorem exists_unfinished (l : List (TaskState Entity)) (h : finished l < (l.length : Int)) :
    ∃ (i : Nat) (t : TaskState Entity), l[i]? = some t ∧ t.rest ≠ [] := by
  by_contra hc
  have : ∀ t ∈ l, t.rest = [] := by
    intro t ht
    by_contra hne
    obtain ⟨i, hi⟩ := List.mem_iff_getElem?.mp ht
    exact hc ⟨i, t, hi, hne⟩
  have := finished_eq_of_all l this
  omega

theorem sum_taskWork_set (l : List (TaskState Entity)) (i : Nat) (t t' : TaskState Entity)
    (h : l[i]? = some t) :
    ((l.set i t').map taskWork).sum + taskWork t = (l.map taskWork).sum + taskWork t' := by
  induction l generalizing i with
  | nil => simp at h
  | cons x l ih =>
    cases i with
    | zero =>
      simp only [List.getElem?_cons_zero, Option.some.injEq] at h
      subst h
      simp only [List.set_cons_zero, List.map_cons, List.sum_cons]
      omega
    | succ i =>
      simp only [List.getElem?_cons_succ] at h
      have := ih i h
      simp only [List.set_cons_succ, List.map_cons, List.sum_cons]
      omega

/-- What one orchestrator action can change. -/
theorem exec_effect {s s₁ : State User Entity} {a : Action User Entity}
    (hex : exec config s a = some s₁) :
    s₁.rest = s.rest ∧ s₁.executed = s.executed ∧
      (s₁.tasks.map taskWork).sum ≤ (s.tasks.map taskWork).sum + 4 ∧
      (s₁.status = s.status ∨ ∃ p, s₁.status = .panicked p) := by
  cases a with
  | add wg d =>
    simp only [exec, Option.some.injEq, State.wgAdd] at hex
    split at hex
    · subst hex
      simp
    · subst hex
      cases wg <;> simp [State.setCounter]
  | done wg =>
    simp only [exec, Option.some.injEq, State.wgAdd] at hex
    split at hex
    · subst hex
      simp
    · subst hex
      cases wg <;> simp [State.setCounter]
  | wait wg =>
    simp only [exec] at hex
    split at hex
    · simp only [Option.some.injEq] at hex
      subst hex
      simp
    · simp at hex
  | println line =>
    simp only [exec, Option.some.injEq] at hex
    subst hex
    simp
  | goStatusPrinter =>
    simp only [exec, Option.some.injEq] at hex
    subst hex
    simp
  | getUserClient u =>
    simp only [exec, collaboratorCall, Option.some.injEq] at hex
    subst hex
    simp
  | create fn ec entity =>
    simp only [exec, collaboratorCall, Option.some.injEq] at hex
    subst hex
    simp
  | go n entity =>
    simp only [exec, Option.some.injEq] at hex
    subst hex
    simp [taskWork, goroutine]
  | notify =>
    simp only [exec, Option.some.injEq] at hex
    subst hex
    simp
  | receive => simp [exec] at hex
  | close c =>
    simp only [exec, Option.some.injEq, State.closeChan] at hex
    split at hex
    · subst hex
      simp
    · subst hex
      cases c <;> simp
  | panic p =>
    simp only [exec, Option.some.injEq] at hex
    subst hex
    simp

theorem not_panic (hU : NoPanic config serverState) :
    ¬ (serverState.Users = [] ∧ 1 ≤ config.UserEntitiesConfiguration.NumClientEntities) := by
  rintro ⟨h0, hN⟩
  rcases hU with h | h
  · rw [h0] at h
    simp at h
  · omega

theorem wgAdd_fields (s : State User Entity) (wg : WaitGroupName) (d : Int) :
    (s.wgAdd wg d).rest = s.rest ∧ (s.wgAdd wg d).tasks = s.tasks ∧
      (s.wgAdd wg d).printer = s.printer ∧ (s.wgAdd wg d).executed = s.executed ∧
      ((s.wgAdd wg d).status = s.status ∨ ∃ p, (s.wgAdd wg d).status = .panicked p) := by
  unfold State.wgAdd
  split
  · simp
  · cases wg <;> simp [State.setCounter]

theorem wgAdd_receiving (s : State User Entity) (wg : WaitGroupName) (d : Int) :
    (s.wgAdd wg d).receiving = s.receiving := by
  unfold State.wgAdd
  split
  · simp
  · cases wg <;> simp [State.setCounter]

theorem main_progress {s s₁ : State User Entity} {a : Action User Entity}
    {r : List (Action User Entity)} (hg : Good config serverState fns s)
    (hU : NoPanic config serverState) (hst : s.status = .running) (hrest : s.rest = a :: r)
    (hex : exec config s a = some s₁) :
    ∃ s', step config s .main = some s' ∧ s'.status = .running ∧ work s' < work s := by
  have hgood := good_main hg hst hrest hex
  obtain ⟨h1, -, h3, h5⟩ := exec_effect hex
  have hrun : s₁.status = .running := by
    rcases h5 with h | ⟨p, hp⟩
    · rw [h, hst]
    · have hadv : s₁.advance = s₁ := by simp [State.advance, hp]
      rw [hadv] at hgood
      exact absurd (hgood.panicked p hp).2 (not_panic hU)
  refine ⟨s₁.advance, step_main_of_exec hst hrest hex, ?_, ?_⟩
  · simp [State.advance, hrun, h1, hrest]
  · simp only [State.advance, hrun, h1, hrest, ne_eq, not_true_eq_false, ite_false, work,
      List.length_cons]
    have : (if s₁.printer = PrinterState.exited then 0 else 1) ≤ 1 := by split <;> omega
    have : (if s.printer = PrinterState.exited then 0 else 1) ≥ 0 := by split <;> omega
    have : (if s₁.receiving = true then 0 else 1) ≤ 1 := by split <;> omega
    have : (if s.receiving = true then 0 else 1) ≥ 0 := by split <;> omega
    omega

theorem task_progress {s : State User Entity} (hg : Good config serverState fns s)
    (hU : NoPanic config serverState) (hst : s.status = .running) {i : Nat} {t : TaskState Entity}
    (hi : s.tasks[i]? = some t) (ht : t.rest ≠ []) (hopen : s.entityWaitChannel = 0) :
    ∃ s', step config s (.task i) = some s' ∧ s'.status = .running ∧ work s' < work s := by
  have key : ∀ (s' : State User Entity) (t' : TaskState Entity),
      stepTask s i = some s' → s'.tasks = s.tasks.set i t' → s'.rest = s.rest →
      s'.printer = s.printer → s'.receiving = s.receiving →
      (s'.status = s.status ∨ ∃ p, s'.status = .panicked p) →
      taskWork t' < taskWork t →
      ∃ s', step config s (.task i) = some s' ∧ s'.status = .running ∧ work s' < work s := by
    intro s' t' hstep htasks hr hp hrc hs hlt
    have hgood := good_task hg hstep
    have hrun : s'.status = .running := by
      rcases hs with h | ⟨p, hp⟩
      · rw [h, hst]
      · exact absurd (hgood.panicked p hp).2 (not_panic hU)
    refine ⟨s', by simp [step, hst, hstep], hrun, ?_⟩
    have := sum_taskWork_set s.tasks i t t' hi
    simp only [work, htasks, hr, hp, hrc]
    omega
  cases hr : t.rest with
  | nil => exact absurd hr ht
  | cons st rest =>
    cases st with
    | waitBarrier =>
      refine key { s with tasks := s.tasks.set i { t with rest := rest } }
        { t with rest := rest } ?_ rfl rfl rfl rfl (Or.inl rfl) ?_
      · simp [stepTask, hi, hr, hopen]
      · simp [taskWork, hr]
    | sleep d =>
      refine key { s with tasks := s.tasks.set i { t with rest := rest } }
        { t with rest := rest } ?_ rfl rfl rfl rfl (Or.inl rfl) ?_
      · simp [stepTask, hi, hr]
      · simp [taskWork, hr]
    | start e =>
      by_cases hs : t.started = true
      · have hf := wgAdd_fields
          ({ s with tasks := s.tasks.set i { t with rest := rest } }) .stopWait (-1)
        refine key _ { t with rest := rest } ?_ hf.2.1 hf.1 hf.2.2.1
          (wgAdd_receiving _ _ _) hf.2.2.2.2 ?_
        · simp [stepTask, startReturns, hi, hr, hs]
        · simp [taskWork, hr]
      · refine key { s with tasks := s.tasks.set i { t with started := true } }
          { t with started := true } ?_ rfl rfl rfl rfl (Or.inl rfl) ?_
        · simp [stepTask, hi, hr, hs]
        · simp [taskWork, hs]

theorem printer_progress {s : State User Entity} (hg : Good config serverState fns s)
    (hU : NoPanic config serverState) (hst : s.status = .running) (hp : s.printer = .running)
    (hc : s.statusPrinterStopChanClosed = true) :
    ∃ s', step config s .printer = some s' ∧ s'.status = .running ∧ work s' < work s := by
  have hf := wgAdd_fields ({ s with printer := .exited }) .printerWait (-1)
  have hstep : stepPrinter s
      = some (({ s with printer := .exited } : State User Entity).wgAdd .printerWait (-1)) := by
    simp [stepPrinter, hp, hc]
  have hgood := good_printer hg hstep
  have hrun : (({ s with printer := .exited } : State User Entity).wgAdd
      .printerWait (-1)).status = .running := by
    rcases hf.2.2.2.2 with h | ⟨p, hp'⟩
    · rw [h]
      exact hst
    · exact absurd (hgood.panicked p hp').2 (not_panic hU)
  refine ⟨_, by simp [step, hst, hstep], hrun, ?_⟩
  simp only [work, hf.1, hf.2.1, hf.2.2.1, hp, wgAdd_receiving]
  simp

/-- A running process whose orchestrator has not reached the end of
`StartUserEntities` can always make a move that brings the end nearer. -/
theorem progress {s : State User Entity} (hg : Good config serverState fns s)
    (hU : NoPanic config serverState) (hst : s.status = .running) (hne : s.rest ≠ []) :
    ∃ l s', step config s l = some s' ∧ s'.status = .running ∧ work s' < work s := by
  cases hrest : s.rest with
  | nil => exact absurd hrest hne
  | cons a r =>
    have ho : ProgramOrder config serverState fns s.executed a :=
      program_ordered config serverState fns (by rw [← hg.prog, hrest])
    have viaMain : ∀ s₁, exec config s a = some s₁ →
        ∃ l s', step config s l = some s' ∧ s'.status = .running ∧ work s' < work s := by
      intro s₁ hex
      obtain ⟨s', h⟩ := main_progress hg hU hst hrest hex
      exact ⟨.main, s', h⟩
    cases a with
    | add wg d => exact viaMain _ rfl
    | done wg => exact viaMain _ rfl
    | println line => exact viaMain _ rfl
    | goStatusPrinter => exact viaMain _ rfl
    | getUserClient u => exact viaMain _ rfl
    | create fn ec entity => exact viaMain _ rfl
    | go n entity => exact viaMain _ rfl
    | notify => exact viaMain _ rfl
    | close c => exact viaMain _ rfl
    | panic p =>
      simp only [ProgramOrder] at ho
      exact absurd ⟨ho.2.1, ho.2.2.2.2.2⟩ (not_panic hU)
    | receive =>
      simp only [ProgramOrder] at ho
      have hh : s.handler = true := hg.handler.mpr ho.1
      by_cases hrc : s.receiving = true
      · refine ⟨.interrupt, State.advance { s with receiving := false }, ?_, ?_, ?_⟩
        · simp [step, hst, stepInterrupt, hh, hrest, hrc]
        · simp [State.advance, hst, hrest]
        · simp [State.advance, hst, hrest, work, hrc]
          omega
      · refine ⟨.main, { s with receiving := true }, ?_, hst, ?_⟩
        · simp [step, hst, hrest, hrc]
        · simp [work, hrc]
    | wait wg =>
      cases wg with
      | entityWaitChannel => exact ho.elim
      | stopWait =>
        by_cases h0 : s.stopWait = 0
        · exact viaMain s (by simp [exec, State.counter, h0])
        · simp only [ProgramOrder] at ho
          obtain ⟨-, hd, hs, ha⟩ := ho
          have hopen : s.entityWaitChannel = 0 := by
            rcases hg.barrier.1 with h | h
            · exact h
            · exact absurd hd (hg.barrier.2.mp h).2
          have hlt : finished s.tasks < (s.tasks.length : Int) := by
            have h1 := hg.stopWait
            have h2 := hg.tasks
            have h3 := finished_le s.tasks
            omega
          obtain ⟨i, t, hi, ht⟩ := exists_unfinished s.tasks hlt
          obtain ⟨s', h⟩ := task_progress hg hU hst hi ht hopen
          exact ⟨.task i, s', h⟩
      | printerWait =>
        by_cases h0 : s.printerWait = 0
        · exact viaMain s (by simp [exec, State.counter, h0])
        · simp only [ProgramOrder] at ho
          obtain ⟨hc, -, hp⟩ := ho
          cases hpr : s.printer with
          | notStarted => exact absurd hp (hg.printerNotStarted hpr).1
          | exited => exact absurd (hg.printerExited hpr).2.1 h0
          | running =>
            obtain ⟨s', h⟩ := printer_progress hg hU hst hpr (hg.statusPrinterStopChan.mpr hc)
            exact ⟨.printer, s', h⟩

theorem run_cons (s : State User Entity) (l : Label) (ls : List Label) :
    run config s (l :: ls) = (step config s l).bind fun s' => run config s' ls := rfl

theorem reachable_run {s s' : State User Entity} {ls : List Label}
    (h : Reachable config serverState fns s) (hrun : run config s ls = some s') :
    Reachable config serverState fns s' := by
  induction ls generalizing s with
  | nil =>
    simp only [run, Option.some.injEq] at hrun
    exact hrun ▸ h
  | cons l ls ih =>
    rw [run_cons] at hrun
    cases hstep : step config s l with
    | none => simp [hstep] at hrun
    | some s₁ =>
      rw [hstep] at hrun
      exact ih (Reachable.next l h hstep) hrun

/-- With at least one user, every running state the process can reach has a
continuation in which `StartUserEntities` runs to its last line. -/
theorem completes (hU : NoPanic config serverState) :
    ∀ (n : Nat) (s : State User Entity), work s ≤ n → Reachable config serverState fns s →
      s.status = .running →
      ∃ ls s', run config s ls = some s' ∧ s'.status = .running ∧ s'.rest = [] := by
  intro n
  induction n with
  | zero =>
    intro s hw _ hst
    refine ⟨[], s, rfl, hst, ?_⟩
    simp only [work] at hw
    exact List.length_eq_zero.mp (by omega)
  | succ n ih =>
    intro s hw hr hst
    by_cases hne : s.rest = []
    · exact ⟨[], s, rfl, hst, hne⟩
    · obtain ⟨l, s₁, hstep, hst₁, hlt⟩ := progress (reachable_good hr) hU hst hne
      obtain ⟨ls, s', hrun, hst', hrest'⟩ :=
        ih s₁ (by omega) (Reachable.next l hr hstep) hst₁
      refine ⟨l :: ls, s', ?_, hst', hrest'⟩
      rw [run_cons, hstep]
      exact hrun

end Progress

/-! ## Consequences of the invariant -/

section Facts
variable {User Entity : Type}
variable {config : LoadTestConfig} {serverState : ServerState User}
  {fns : List (UserEntityConfig User → Entity)}

/-- Whatever the orchestrator has performed, it performed in program order. -/
theorem executed_order {s : State User Entity} (hg : Good config serverState fns s)
    {a : Action User Entity} (ha : a ∈ s.executed) :
    ∃ e₁ e₂, s.executed = e₁ ++ a :: e₂ ∧ ProgramOrder config serverState fns e₁ a := by
  obtain ⟨e₁, e₂, h⟩ := List.append_of_mem ha
  refine ⟨e₁, e₂, h, program_ordered config serverState fns (r := e₂ ++ s.rest) ?_⟩
  rw [← hg.prog, h]
  simp

theorem mem_of_executed_order {s : State User Entity} {a b : Action User Entity}
    {e₁ e₂ : List (Action User Entity)} (h : s.executed = e₁ ++ a :: e₂) (hb : b ∈ e₁) :
    b ∈ s.executed := by
  rw [h]
  exact List.mem_append_left _ hb

/-- When no entity is requested the loop body never runs. -/
theorem StartUserEntities_of_nonpos (config : LoadTestConfig) (serverState : ServerState User)
    (fns : List (UserEntityConfig User → Entity))
    (hN : config.UserEntitiesConfiguration.NumClientEntities ≤ 0) :
    StartUserEntities config serverState fns
      = [.add .entityWaitChannel 1, .add .printerWait 1, .goStatusPrinter,
          .println ("------------------------- Starting "
            ++ toString config.UserEntitiesConfiguration.NumClientEntities ++ " entities")]
        ++ shutdown := by
  have h0 : ordinals config.UserEntitiesConfiguration.NumClientEntities = [] := by
    simp [ordinals, hN]
  simp [StartUserEntities, h0, startLoop]

/-- Without a panic the program is a start-up phase, in which everything is
created and spawned, followed by the shutdown sequence. -/
theorem StartUserEntities_split (config : LoadTestConfig) (serverState : ServerState User)
    (fns : List (UserEntityConfig User → Entity)) (hU : NoPanic config serverState) :
    ∃ startup, StartUserEntities config serverState fns = startup ++ shutdown ∧
      StartupOnly startup ∧ (spawned startup).length = total config fns ∧
      (creations startup).length = total config fns := by
  have key : ∃ startup, StartUserEntities config serverState fns = startup ++ shutdown := by
    rcases hU with h | h
    · exact ⟨_, by rw [StartUserEntities_eq _ _ _ h, ← List.append_assoc]⟩
    · exact ⟨_, StartUserEntities_of_nonpos config serverState fns h⟩
  obtain ⟨startup, hsplit⟩ := key
  refine ⟨startup, hsplit, ?_⟩
  have hsplit' : StartUserEntities config serverState fns
      = startup ++ .done .entityWaitChannel :: (shutdown : List (Action User Entity)).tail := by
    rw [hsplit]
    rfl
  have ho := program_ordered config serverState fns hsplit'
  simp only [ProgramOrder] at ho
  exact ⟨ho.2.1, ho.2.2.2.1, ho.2.2.2.2.1⟩

/-- The state in which `StartUserEntities` has returned. -/
theorem final_state {s : State User Entity} (hr : Reachable config serverState fns s)
    (hrest : s.rest = []) (hU : NoPanic config serverState) :
    s.executed = StartUserEntities config serverState fns ∧
      s.output.getLast? = some "DONE!" ∧ s.stopChanClosed = true ∧
      s.statusPrinterStopChanClosed = true ∧ s.handler = true ∧ s.stopWait = 0 ∧
      s.entityWaitChannel = 0 ∧ s.printerWait = 0 ∧ s.printer = .exited ∧
      (∀ t ∈ s.tasks, t.rest = []) ∧ s.tasks.length = total config fns ∧
      s.status = .running := by
  have hg := reachable_good hr
  have he : s.executed = StartUserEntities config serverState fns := by
    have := hg.prog
    rw [hrest] at this
    simpa using this
  obtain ⟨startup, hsplit, -, -, -⟩ := StartUserEntities_split config serverState fns hU
  have hmem : ∀ a ∈ (shutdown : List (Action User Entity)), a ∈ s.executed := by
    intro a ha
    rw [he, hsplit]
    exact List.mem_append_right _ ha
  have hw := hg.waited (hmem _ (by simp [shutdown]))
  have hf := hg.flushed (hmem _ (by simp [shutdown]))
  refine ⟨he, ?_, hg.stopChan.mpr (hmem _ (by simp [shutdown])),
    hg.statusPrinterStopChan.mpr (hmem _ (by simp [shutdown])),
    hg.handler.mpr (hmem _ (by simp [shutdown])), hw.1, ?_, (hg.printerExited hf).2.1, hf,
    hw.2.1, hw.2.2, ?_⟩
  · rw [hg.output, he, hsplit]
    simp [printed, shutdown, Action.line?]
  · rcases hg.barrier.1 with h | h
    · exact h
    · exact absurd (hmem _ (by simp [shutdown])) (hg.barrier.2.mp h).2
  · cases hs : s.status with
    | running => rfl
    | panicked p => exact absurd (hg.panicked p hs).2 (not_panic hU)
    | killed => exact absurd (hmem _ (by simp [shutdown])) (hg.killed hs)

theorem done_of_notify {s : State User Entity} (hg : Good config serverState fns s)
    (h : .notify ∈ s.executed) : .done .entityWaitChannel ∈ s.executed := by
  obtain ⟨e₁, e₂, he, ho⟩ := executed_order hg h
  exact mem_of_executed_order he ho.1

theorem notify_of_receive {s : State User Entity} (hg : Good config serverState fns s)
    (h : .receive ∈ s.executed) : .notify ∈ s.executed := by
  obtain ⟨e₁, e₂, he, ho⟩ := executed_order hg h
  exact mem_of_executed_order he ho.1

theorem receive_of_close {s : State User Entity} (hg : Good config serverState fns s)
    (h : .close .stopChan ∈ s.executed) : .receive ∈ s.executed := by
  obtain ⟨e₁, e₂, he, ho⟩ := executed_order hg h
  exact mem_of_executed_order he ho.1

theorem close_of_wait {s : State User Entity} (hg : Good config serverState fns s)
    (h : .wait .stopWait ∈ s.executed) : .close .stopChan ∈ s.executed := by
  obtain ⟨e₁, e₂, he, ho⟩ := executed_order hg h
  exact mem_of_executed_order he ho.1

theorem wait_of_closePrinter {s : State User Entity} (hg : Good config serverState fns s)
    (h : .close .statusPrinterStopChan ∈ s.executed) : .wait .stopWait ∈ s.executed := by
  obtain ⟨e₁, e₂, he, ho⟩ := executed_order hg h
  exact mem_of_executed_order he ho.1

theorem closePrinter_of_waitPrinter {s : State User Entity}
    (hg : Good config serverState fns s) (h : .wait .printerWait ∈ s.executed) :
    .close .statusPrinterStopChan ∈ s.executed := by
  obtain ⟨e₁, e₂, he, ho⟩ := executed_order hg h
  exact mem_of_executed_order he ho.1

theorem waitPrinter_of_done {s : State User Entity} (hg : Good config serverState fns s)
    (h : "DONE!" ∈ s.output) : .wait .printerWait ∈ s.executed := by
  rw [hg.output, printed, List.mem_filterMap] at h
  obtain ⟨a, ha, hl⟩ := h
  cases a with
  | println line =>
    simp only [Action.line?, Option.some.injEq] at hl
    subst hl
    obtain ⟨e₁, e₂, he, ho⟩ := executed_order hg ha
    exact mem_of_executed_order he (ho rfl)
  | _ => simp [Action.line?] at hl

end Facts

/-! ## Signals: what an interrupt does, and what follows its receipt -/

section Interrupts
variable {User Entity : Type}
variable {config : LoadTestConfig} {serverState : ServerState User}
  {fns : List (UserEntityConfig User → Entity)}

/-- Without a user and with at least one entity requested, the program ends in
the panic of the first iteration. -/
theorem StartUserEntities_of_no_user (config : LoadTestConfig) (serverState : ServerState User)
    (fns : List (UserEntityConfig User → Entity)) (hU : serverState.Users = [])
    (hN : 1 ≤ config.UserEntitiesConfiguration.NumClientEntities) :
    StartUserEntities config serverState fns
      = [.add .entityWaitChannel 1, .add .printerWait 1, .goStatusPrinter,
          .println ("------------------------- Starting "
            ++ toString config.UserEntitiesConfiguration.NumClientEntities ++ " entities"),
          .println "Starting Entity: 0", .panic .integerDivideByZero] := by
  obtain ⟨n, hn⟩ : ∃ n, config.UserEntitiesConfiguration.NumClientEntities.toNat = n + 1 :=
    ⟨config.UserEntitiesConfiguration.NumClientEntities.toNat - 1, by omega⟩
  simp only [StartUserEntities, ordinals, hn, List.range_succ_eq_map, startLoop, hU,
    selectUser_nil]
  rfl

/-- A registered handler means that line 68 did not panic. -/
theorem noPanic_of_notify {s : State User Entity} (hg : Good config serverState fns s)
    (h : .notify ∈ s.executed) : NoPanic config serverState := by
  by_contra hU
  unfold NoPanic at hU
  push_neg at hU
  have hUs : serverState.Users = [] := List.length_eq_zero.mp (by omega)
  have hm : Action.notify ∈ s.executed ++ s.rest := List.mem_append_left _ h
  rw [hg.prog, StartUserEntities_of_no_user config serverState fns hUs (by omega)] at hm
  simp at hm

/-- A process with its handler registered is running: no signal has ended it
and nothing has panicked. -/
theorem running_of_notify {s : State User Entity} (hg : Good config serverState fns s)
    (h : .notify ∈ s.executed) : s.status = .running := by
  cases hs : s.status with
  | running => rfl
  | panicked p => exact absurd (hg.panicked p hs).2 (not_panic (noPanic_of_notify hg h))
  | killed => exact absurd h (hg.killed hs)

theorem wgAdd_frame (s : State User Entity) (wg : WaitGroupName) (d : Int) :
    (s.wgAdd wg d).executed = s.executed ∧ (s.wgAdd wg d).rest = s.rest ∧
      (s.wgAdd wg d).handler = s.handler ∧ (s.wgAdd wg d).receiving = s.receiving := by
  unfold State.wgAdd
  split
  · simp
  · cases wg <;> simp [State.setCounter]

theorem closeChan_receiving (s : State User Entity) (c : ChanName) :
    (s.closeChan c).receiving = s.receiving := by
  unfold State.closeChan
  split
  · rfl
  · cases c <;> rfl

theorem advance_receiving (s : State User Entity) : s.advance.receiving = s.receiving := by
  unfold State.advance
  split
  · rfl
  · split <;> rfl

theorem advance_executed (s : State User Entity) (a : Action User Entity)
    (h : a ∈ s.executed) : a ∈ s.advance.executed := by
  unfold State.advance
  split
  · exact h
  · split
    · exact h
    · exact List.mem_append_left _ h

theorem exec_receiving {s s₁ : State User Entity} {a : Action User Entity}
    (hex : exec config s a = some s₁) : s₁.receiving = s.receiving := by
  cases a with
  | add wg d =>
    simp only [exec, Option.some.injEq] at hex
    subst hex
    exact (wgAdd_frame _ _ _).2.2.2
  | done wg =>
    simp only [exec, Option.some.injEq] at hex
    subst hex
    exact (wgAdd_frame _ _ _).2.2.2
  | wait wg =>
    simp only [exec] at hex
    split at hex
    · simp only [Option.some.injEq] at hex
      subst hex
      rfl
    · simp at hex
  | close c =>
    simp only [exec, Option.some.injEq] at hex
    subst hex
    exact closeChan_receiving _ _
  | receive => simp [exec] at hex
  | _ =>
    simp only [exec, collaboratorCall, Option.some.injEq] at hex
    subst hex
    rfl

/-- A move of a spawned goroutine leaves the orchestrator where it is. -/
theorem stepTask_frame {s s' : State User Entity} {i : Nat} (h : stepTask s i = some s') :
    s'.executed = s.executed ∧ s'.rest = s.rest ∧ s'.handler = s.handler ∧
      s'.receiving = s.receiving := by
  unfold stepTask at h
  split at h
  · simp at h
  · split at h
    · simp at h
    · split at h
      · simp only [Option.some.injEq] at h
        subst h
        simp
      · simp at h
    · simp only [Option.some.injEq] at h
      subst h
      simp
    · split at h
      · simp only [startReturns, Option.some.injEq] at h
        subst h
        exact wgAdd_frame _ _ _
      · simp only [Option.some.injEq] at h
        subst h
        simp

/-- A move of the status printer leaves the orchestrator where it is. -/
theorem stepPrinter_frame {s s' : State User Entity} (h : stepPrinter s = some s') :
    s'.executed = s.executed ∧ s'.rest = s.rest ∧ s'.handler = s.handler ∧
      s'.receiving = s.receiving := by
  unfold stepPrinter at h
  split at h
  · simp only [Option.some.injEq] at h
    subst h
    exact wgAdd_frame _ _ _
  · simp at h

theorem step_running {s s' : State User Entity} {l : Label}
    (h : step config s l = some s') : s.status = .running := by
  unfold step at h
  split at h
  · simp at h
  · rename_i hst
    simpa using hst

theorem step_task_eq {s s' : State User Entity} {i : Nat}
    (h : step config s (.task i) = some s') : stepTask s i = some s' := by
  unfold step at h
  split at h
  · simp at h
  · exact h

theorem step_printer_eq {s s' : State User Entity}
    (h : step config s .printer = some s') : stepPrinter s = some s' := by
  unfold step at h
  split at h
  · simp at h
  · exact h

theorem step_interrupt_eq {s s' : State User Entity}
    (h : step config s .interrupt = some s') : stepInterrupt s = some s' := by
  unfold step at h
  split at h
  · simp at h
  · exact h

/-- What a signal does: without a handler it ends the process; with one it is
dropped unless the orchestrator is blocked in the receive, which then
completes. -/
theorem stepInterrupt_cases {s s' : State User Entity} (hst : s.status = .running)
    (h : stepInterrupt s = some s') :
    (s.handler = false ∧ s' = { s with status := .killed }) ∨
    (s.handler = true ∧ s' = s ∧ (s.receiving = false ∨ ∀ r, s.rest ≠ .receive :: r)) ∨
    (s.handler = true ∧ s.receiving = true ∧ ∃ r, s.rest = .receive :: r ∧
      s' = { s with receiving := false, executed := s.executed ++ [.receive], rest := r }) := by
  unfold stepInterrupt at h
  by_cases hh : s.handler = true
  · rw [if_pos hh] at h
    right
    split at h
    · rename_i r hrest
      by_cases hrc : s.receiving = true
      · right
        simp only [hrc, ite_true, Option.some.injEq] at h
        refine ⟨hh, hrc, r, hrest, ?_⟩
        rw [← h]
        simp [State.advance, hst, hrest]
      · left
        simp only [hrc, Bool.false_eq_true, ite_false, Option.some.injEq] at h
        exact ⟨hh, h.symm, Or.inl (by simpa using hrc)⟩
    · rename_i hne
      left
      simp only [Option.some.injEq] at h
      exact ⟨hh, h.symm, Or.inr fun r hr => hne r hr⟩
  · rw [if_neg hh] at h
    left
    simp only [Option.some.injEq] at h
    exact ⟨by simpa using hh, h.symm⟩

theorem atReceive_frame {s s' : State User Entity} (ha : AtReceive s)
    (h : s'.executed = s.executed ∧ s'.rest = s.rest ∧ s'.handler = s.handler ∧
      s'.receiving = s.receiving) : AtReceive s' := by
  intro hrc
  rw [h.2.2.2] at hrc
  rw [h.2.2.1, h.2.1]
  exact ha hrc

/-- Only an orchestrator at the receive of line 111, with the handler
registered, is ever blocked in the receive. -/
theorem atReceive_step {s s' : State User Entity} {l : Label}
    (hg : Good config serverState fns s) (ha : AtReceive s)
    (hstep : step config s l = some s') : AtReceive s' := by
  have hst := step_running hstep
  cases l with
  | main =>
    obtain ⟨-, a, r, hrest, ⟨rfl, -, rfl⟩ | ⟨s₁, hex, rfl⟩⟩ := step_main_inv hstep
    · intro _
      have ho : ProgramOrder config serverState fns s.executed .receive :=
        program_ordered config serverState fns (by rw [← hg.prog, hrest])
      exact ⟨hg.handler.mpr ho.1, r, hrest⟩
    · intro hrc
      rw [advance_receiving, exec_receiving hex] at hrc
      obtain ⟨-, r', hr'⟩ := ha hrc
      rw [hrest] at hr'
      cases hr'
      simp [exec] at hex
  | task i => exact atReceive_frame ha (stepTask_frame (step_task_eq hstep))
  | printer => exact atReceive_frame ha (stepPrinter_frame (step_printer_eq hstep))
  | interrupt =>
    rcases stepInterrupt_cases hst (step_interrupt_eq hstep) with
      ⟨-, rfl⟩ | ⟨-, rfl, -⟩ | ⟨-, -, r, -, rfl⟩
    · exact ha
    · exact ha
    · intro hrc
      simp at hrc

theorem good_atReceive_initial (config : LoadTestConfig) (serverState : ServerState User)
    (fns : List (UserEntityConfig User → Entity)) :
    AtReceive (initial config serverState fns) := by
  intro h
  simp [initial] at h

theorem reachable_atReceive {s : State User Entity}
    (h : Reachable config serverState fns s) : AtReceive s := by
  induction h with
  | init => exact good_atReceive_initial config serverState fns
  | next l hr hstep ih => exact atReceive_step (reachable_good hr) ih hstep

/-- What the orchestrator has performed stays performed. -/
theorem step_executed {s s' : State User Entity} {l : Label}
    (hstep : step config s l = some s') (a : Action User Entity) (h : a ∈ s.executed) :
    a ∈ s'.executed := by
  have hst := step_running hstep
  cases l with
  | main =>
    obtain ⟨-, b, r, hrest, ⟨rfl, -, rfl⟩ | ⟨s₁, hex, rfl⟩⟩ := step_main_inv hstep
    · exact h
    · apply advance_executed
      rw [(exec_effect hex).2.1]
      exact h
  | task i =>
    rw [(stepTask_frame (step_task_eq hstep)).1]
    exact h
  | printer =>
    rw [(stepPrinter_frame (step_printer_eq hstep)).1]
    exact h
  | interrupt =>
    rcases stepInterrupt_cases hst (step_interrupt_eq hstep) with
      ⟨-, rfl⟩ | ⟨-, rfl, -⟩ | ⟨-, -, r, -, rfl⟩
    · exact h
    · exact h
    · exact List.mem_append_left _ h

/-- Every move other than the delivery of a signal brings the end of
`StartUserEntities` nearer, and leaves the process running. -/
theorem step_decreases {s s' : State User Entity} {l : Label}
    (hg : Good config serverState fns s) (hU : NoPanic config serverState)
    (hstep : step config s l = some s') (hl : l ≠ .interrupt) :
    s'.status = .running ∧ work s' < work s := by
  have hst := step_running hstep
  cases l with
  | interrupt => exact absurd rfl hl
  | main =>
    obtain ⟨-, a, r, hrest, ⟨rfl, hrc, rfl⟩ | ⟨s₁, hex, rfl⟩⟩ := step_main_inv hstep
    · exact ⟨hst, by simp [work, hrc]⟩
    · obtain ⟨s'', h1, h2, h3⟩ := main_progress hg hU hst hrest hex
      rw [hstep] at h1
      cases h1
      exact ⟨h2, h3⟩
  | task i =>
    have hT := step_task_eq hstep
    cases hi : s.tasks[i]? with
    | none => simp [stepTask, hi] at hT
    | some t =>
      have ht : t.rest ≠ [] := by
        intro h0
        simp [stepTask, hi, h0] at hT
      have hopen : s.entityWaitChannel = 0 := by
        rcases hg.barrier.1 with h | h
        · exact h
        · exfalso
          have hnd := (hg.barrier.2.mp h).2
          obtain ⟨e, hsh⟩ := hg.shape t (List.getElem?_mem hi)
          rcases hsh with ⟨hr, -⟩ | ⟨ho, -⟩ | ⟨ho, -⟩ | ⟨ho, -⟩
          · simp [stepTask, hi, hr, goroutine, h] at hT
          · exact hnd ho
          · exact hnd ho
          · exact hnd ho
      obtain ⟨s'', h1, h2, h3⟩ := task_progress hg hU hst hi ht hopen
      rw [hstep] at h1
      cases h1
      exact ⟨h2, h3⟩
  | printer =>
    have hP := step_printer_eq hstep
    have hc : s.printer = .running ∧ s.statusPrinterStopChanClosed = true := by
      unfold stepPrinter at hP
      split at hP
      · rename_i h
        exact h
      · simp at hP
    obtain ⟨s'', h1, h2, h3⟩ := printer_progress hg hU hst hc.1 hc.2
    rw [hstep] at h1
    cases h1
    exact ⟨h2, h3⟩

/-- Once the orchestrator has received a signal, every further signal is
dropped. -/
theorem interrupt_after_receive {s : State User Entity} (hg : Good config serverState fns s)
    (hrecv : .receive ∈ s.executed) : step config s .interrupt = some s := by
  have hn := notify_of_receive hg hrecv
  have hst := running_of_notify hg hn
  have hh : s.handler = true := hg.handler.mpr hn
  have hhead : ∀ r, s.rest ≠ .receive :: r := by
    intro r hrest
    have ho : ProgramOrder config serverState fns s.executed .receive :=
      program_ordered config serverState fns (by rw [← hg.prog, hrest])
    exact ho.2.2.1 hrecv
  unfold step
  rw [if_neg (by simp [hst])]
  show stepInterrupt s = some s
  unfold stepInterrupt
  rw [if_pos hh]
  split
  · rename_i r hrest
    exact absurd hrest (hhead _)
  · rfl

/-- After the receipt of a signal every execution stays on the way to the last
line: the process keeps running, and the moves other than dropped signals are
bounded by the work left. -/
theorem run_after_receive (ls : List Label) :
    ∀ (s s' : State User Entity), Reachable config serverState fns s →
      .receive ∈ s.executed → run config s ls = some s' →
      .receive ∈ s'.executed ∧ s'.status = .running ∧
        (ls.filter (· ≠ .interrupt)).length + work s' ≤ work s := by
  induction ls with
  | nil =>
    intro s s' hr hrecv hrun
    simp only [run, Option.some.injEq] at hrun
    subst hrun
    have hg := reachable_good hr
    exact ⟨hrecv, running_of_notify hg (notify_of_receive hg hrecv), by simp⟩
  | cons l ls ih =>
    intro s s' hr hrecv hrun
    have hg := reachable_good hr
    rw [run_cons] at hrun
    cases hstep : step config s l with
    | none => simp [hstep] at hrun
    | some s₁ =>
      rw [hstep] at hrun
      have hrun : run config s₁ ls = some s' := hrun
      have h1 := ih s₁ s' (Reachable.next l hr hstep) (step_executed hstep _ hrecv) hrun
      refine ⟨h1.1, h1.2.1, ?_⟩
      by_cases hl : l = .interrupt
      · subst hl
        rw [interrupt_after_receive hg hrecv] at hstep
        cases hstep
        simpa using h1.2.2
      · have hd := step_decreases hg (noPanic_of_notify hg (notify_of_receive hg hrecv)) hstep hl
        have h2 := h1.2.2
        rw [List.filter_cons, if_pos (by simpa using hl), List.length_cons]
        omega

/-- After the receipt of a signal a process that is not at its last line can
move without a further signal. -/
theorem move_after_receive {s : State User Entity} (hg : Good config serverState fns s)
    (hrecv : .receive ∈ s.executed) (hne : s.rest ≠ []) :
    ∃ l s', l ≠ .interrupt ∧ step config s l = some s' := by
  have hn := notify_of_receive hg hrecv
  obtain ⟨l, s', hstep, -, hlt⟩ := progress hg (noPanic_of_notify hg hn)
    (running_of_notify hg hn) hne
  refine ⟨l, s', ?_, hstep⟩
  rintro rfl
  rw [interrupt_after_receive hg hrecv] at hstep
  cases hstep
  omega

/-- Right after `signal.Notify` the orchestrator is at the receive of line 111. -/
theorem rest_of_notify {s : State User Entity} (hg : Good config serverState fns s)
    (hn : .notify ∈ s.executed) (hr : .receive ∉ s.executed) : ∃ r, s.rest = .receive :: r := by
  have hU := noPanic_of_notify hg hn
  obtain ⟨startup, hsplit, hS, -, -⟩ := StartUserEntities_split config serverState fns hU
  have hp := hg.prog
  rw [hsplit] at hp
  rcases List.append_eq_append_iff.mp hp with ⟨a', h1, h2⟩ | ⟨c', h1, h2⟩
  · have hm : Action.notify ∈ startup := by
      rw [h1]
      exact List.mem_append_left _ hn
    exact absurd hm (not_mem_of_startupOnly hS rfl)
  · have hn' : Action.notify ∈ c' := by
      rw [h1] at hn
      rcases List.mem_append.mp hn with h | h
      · exact absurd h (not_mem_of_startupOnly hS rfl)
      · exact h
    have hr' : Action.receive ∉ c' := by
      intro h
      apply hr
      rw [h1]
      exact List.mem_append_right _ h
    rcases c' with _ | ⟨x1, _ | ⟨x2, _ | ⟨x3, _ | ⟨x4, c4⟩⟩⟩⟩
    · simp at hn'
    · simp [shutdown] at h2
      obtain ⟨rfl, -⟩ := h2
      simp at hn'
    · simp [shutdown] at h2
      obtain ⟨rfl, rfl, -⟩ := h2
      simp at hn'
    · simp [shutdown] at h2
      exact ⟨_, h2.2.2.2.symm⟩
    · simp [shutdown] at h2
      obtain ⟨-, -, -, rfl, -⟩ := h2
      simp at hr'

end Interrupts

/-! ## The scenario is a run of the semantics -/

section ScenarioRun

theorem scenario_run :
    run scenarioConfig (initial scenarioConfig scenarioState scenarioFns) scenarioSchedule
      = some scenarioFinal := by
  rfl

theorem scenario_reachable :
    Reachable scenarioConfig scenarioState scenarioFns scenarioFinal :=
  reachable_run Reachable.init scenario_run

theorem scenarioNotified_run :
    run scenarioConfig (initial scenarioConfig scenarioState scenarioFns)
        (List.replicate 22 .main)
      = some scenarioNotified := by
  rfl

theorem scenarioNotified_reachable :
    Reachable scenarioConfig scenarioState scenarioFns scenarioNotified :=
  reachable_run Reachable.init scenarioNotified_run

end ScenarioRun

/-! ## The claims -/

section Claims

variable {User Entity : Type}

/-- C1. With at least one user, the user selection of line 68 succeeds for
every ordinal with an index inside the user list, no panic is raised, and
every creation function is handed, for every ordinal `i` below
`NumClientEntities`, a configuration with `Id = i` and
`EntityUser = Users[i mod M]`. -/
theorem C1_entity_user_assignment (config : LoadTestConfig) (serverState : ServerState User)
    (fns : List (UserEntityConfig User → Entity)) (hM : 1 ≤ serverState.Users.length) :
    (∀ i : Nat, i % serverState.Users.length < serverState.Users.length ∧
      ∃ u, serverState.Users[i % serverState.Users.length]? = some u ∧
        selectUser serverState.Users i = .ok u) ∧
    panics (StartUserEntities config serverState fns) = [] ∧
    (∀ c ∈ creations (StartUserEntities config serverState fns),
      ∃ i : Nat, (i : Int) < config.UserEntitiesConfiguration.NumClientEntities ∧
        c.2.1.Id = i ∧
        serverState.Users[i % serverState.Users.length]? = some c.2.1.EntityUser) ∧
    (∀ i : Nat, (i : Int) < config.UserEntitiesConfiguration.NumClientEntities →
      ∀ fn : Nat, fn < fns.length →
        ∃ c ∈ creations (StartUserEntities config serverState fns),
          c.1 = fn ∧ c.2.1.Id = i ∧
          serverState.Users[i % serverState.Users.length]? = some c.2.1.EntityUser) := by
  have h : 0 < serverState.Users.length := hM
  refine ⟨fun i => ⟨Nat.mod_lt _ h, _, ?_, selectUser_ok _ h i⟩, ?_, ?_, ?_⟩
  · exact List.getElem?_eq_getElem (Nat.mod_lt _ h)
  · exact panics_StartUserEntities _ _ _ h
  · intro c hc
    rw [creations_StartUserEntities _ _ _ h] at hc
    simp only [List.mem_flatMap, List.mem_map] at hc
    obtain ⟨i, hi, p, -, rfl⟩ := hc
    refine ⟨i, ?_, rfl, ?_⟩
    · simp only [ordinals, List.mem_range] at hi
      omega
    · exact List.getElem?_eq_getElem (Nat.mod_lt _ h)
  · intro i hi fn hfn
    refine ⟨(fn, mkEntityConfig config serverState i
        (serverState.Users.get ⟨i % serverState.Users.length, Nat.mod_lt _ h⟩),
        fns[fn] (mkEntityConfig config serverState i
        (serverState.Users.get ⟨i % serverState.Users.length, Nat.mod_lt _ h⟩))), ?_, rfl, rfl, ?_⟩
    · rw [creations_StartUserEntities _ _ _ h]
      simp only [List.mem_flatMap, List.mem_map]
      refine ⟨i, ?_, (fn, fns[fn]), ?_, rfl⟩
      · simp only [ordinals, List.mem_range]
        omega
      · rw [List.mk_mem_enumFrom_iff_le_and_getElem?_sub]
        simp [hfn]
    · exact List.getElem?_eq_getElem (Nat.mod_lt _ h)

/-- C2. Whenever line 68 does not panic (at least one user, or no entity
requested): the start-up loop invokes the creation functions once per ordinal
below `NumClientEntities`, in order of ordinal and then of position in
`entityCreationFunctions` (`N * F` invocations), each invocation being the
function at that position applied to the configuration; it spawns exactly one
goroutine per created entity, in the same order; and the `Add` calls on
`stopWait` sum to `N * F`. With `N = 0` nothing is created and the sum is 0. -/
theorem C2_startup_creations (config : LoadTestConfig) (serverState : ServerState User)
    (fns : List (UserEntityConfig User → Entity))
    (hM : 1 ≤ serverState.Users.length ∨
      config.UserEntitiesConfiguration.NumClientEntities ≤ 0) :
    (creations (StartUserEntities config serverState fns)).map (fun c => (c.2.1.Id, c.1))
      = (List.range config.UserEntitiesConfiguration.NumClientEntities.toNat).flatMap
          (fun i => (List.range fns.length).map (fun fn => ((i : Int), fn))) ∧
    (∀ c ∈ creations (StartUserEntities config serverState fns),
      ∃ createEntity, fns[c.1]? = some createEntity ∧ c.2.2 = createEntity c.2.1) ∧
    (creations (StartUserEntities config serverState fns)).length
      = config.UserEntitiesConfiguration.NumClientEntities.toNat * fns.length ∧
    spawned (StartUserEntities config serverState fns)
      = (creations (StartUserEntities config serverState fns)).map
          (fun c => (c.2.1.Id.toNat, c.2.2)) ∧
    added .stopWait (StartUserEntities config serverState fns)
      = (config.UserEntitiesConfiguration.NumClientEntities.toNat : Int) * (fns.length : Int) ∧
    (config.UserEntitiesConfiguration.NumClientEntities = 0 →
      creations (StartUserEntities config serverState fns) = [] ∧
      spawned (StartUserEntities config serverState fns) = [] ∧
      added .stopWait (StartUserEntities config serverState fns) = 0) := by
  rcases hM with h | hN
  · refine ⟨?_, ?_, ?_, ?_, ?_, ?_⟩
    · rw [creations_StartUserEntities _ _ _ h]
      simp only [ordinals, List.map_flatMap, List.map_map, Function.comp_def, mkEntityConfig]
      congr 1
      funext i
      rw [map_fst_enumFrom_eq fns (fun fn => ((i : Int), fn)) 0, List.range_eq_range']
    · intro c hc
      rw [creations_StartUserEntities _ _ _ h] at hc
      simp only [List.mem_flatMap, List.mem_map] at hc
      obtain ⟨i, -, p, hp, rfl⟩ := hc
      refine ⟨p.2, ?_, rfl⟩
      have := (List.mk_mem_enumFrom_iff_le_and_getElem?_sub (n := 0) (i := p.1) (x := p.2)
        (l := fns)).mp hp
      simpa using this.2
    · rw [creations_StartUserEntities _ _ _ h]
      rw [length_flatMap_const _ fns.length (by intro i; simp)]
      simp [ordinals]
    · rw [creations_StartUserEntities _ _ _ h, spawned_StartUserEntities _ _ _ h]
      simp only [List.map_flatMap, List.map_map, Function.comp_def, mkEntityConfig,
        Int.toNat_ofNat]
      congr 1
      funext i
      have : ∀ (k : Nat) (g : (UserEntityConfig User → Entity) → Nat × Entity),
          (fns.enumFrom k).map (fun p => g p.2) = fns.map g := by
        intro k g
        induction fns generalizing k with
        | nil => simp
        | cons f fs ih => simp [ih]
      exact (this 0 _).symm
    · rw [added_StartUserEntities _ _ _ h]
      push_cast
      rfl
    · intro hN
      have h0 : ordinals config.UserEntitiesConfiguration.NumClientEntities = [] := by
        simp [ordinals, hN]
      rw [creations_StartUserEntities _ _ _ h, spawned_StartUserEntities _ _ _ h,
        added_StartUserEntities _ _ _ h, h0, hN]
      simp
  · have h0 : config.UserEntitiesConfiguration.NumClientEntities.toNat = 0 := by omega
    have hc : creations (StartUserEntities config serverState fns) = [] := by
      rw [StartUserEntities_of_nonpos config serverState fns hN]
      simp [creations, Action.creation?, shutdown]
    have hs : spawned (StartUserEntities config serverState fns) = [] := by
      rw [StartUserEntities_of_nonpos config serverState fns hN]
      simp [spawned, Action.spawn?, shutdown]
    have ha : added .stopWait (StartUserEntities config serverState fns) = 0 := by
      rw [StartUserEntities_of_nonpos config serverState fns hN]
      simp [added, Action.delta, shutdown]
    rw [hc, hs, ha, h0]
    simp

/-- C3. The goroutine of entity `i` sleeps, after the barrier wait, for the
`time.Duration` value `r * 1,000,000 * i` nanoseconds computed in `int64`
(wrapping) arithmetic; whenever that product is representable in `int64` this
is exactly `r * i` milliseconds. Entity 0 gets 0, and entity 1 gets exactly one
rampup interval `time.Duration(r) * time.Millisecond`. -/
theorem C3_stagger_delay (config : LoadTestConfig) (entityNum : Nat) (entity : Entity) :
    (goroutine config entityNum entity)[1]?
      = some (.sleep (wrapInt64
          (config.UserEntitiesConfiguration.EntityRampupDistanceMilliseconds * 1000000
            * (entityNum : Int)))) ∧
    sleepDuration config entityNum
      = wrapInt64 (config.UserEntitiesConfiguration.EntityRampupDistanceMilliseconds * 1000000
          * (entityNum : Int)) ∧
    (-2 ^ 63 ≤ config.UserEntitiesConfiguration.EntityRampupDistanceMilliseconds * 1000000
          * (entityNum : Int) →
      config.UserEntitiesConfiguration.EntityRampupDistanceMilliseconds * 1000000
          * (entityNum : Int) < 2 ^ 63 →
      sleepDuration config entityNum
        = config.UserEntitiesConfiguration.EntityRampupDistanceMilliseconds * (entityNum : Int)
            * Millisecond) ∧
    sleepDuration config 0 = 0 ∧
    sleepDuration config 1 = rampupDistance config := by
  refine ⟨?_, sleepDuration_eq config entityNum, ?_, ?_, ?_⟩
  · simp [goroutine, sleepDuration_eq]
  · intro h₁ h₂
    rw [sleepDuration_eq, wrapInt64_of_range _ h₁ h₂, Millisecond]
    ring
  · rw [sleepDuration_eq]
    simp [wrapInt64]
  · rw [sleepDuration_eq, rampupDistance_eq]
    simp

/-- C4 (as stated) fails. With a negative rampup distance the delay computed
for entity 1 is smaller than the one computed for entity 0; and with
`r = 10^12` ms and 11 entities the product for entity 10 overflows `int64`, so
that entity 10 sleeps less than entity 9. -/
theorem C4_counterexample :
    sleepDuration ⟨⟨2, -1⟩⟩ (0 + 1) < sleepDuration ⟨⟨2, -1⟩⟩ 0 ∧
    sleepDuration ⟨⟨11, 1000000000000⟩⟩ (9 + 1) < sleepDuration ⟨⟨11, 1000000000000⟩⟩ 9 ∧
    sleepTime (sleepDuration ⟨⟨11, 1000000000000⟩⟩ (9 + 1))
      < sleepTime (sleepDuration ⟨⟨11, 1000000000000⟩⟩ 9) := by
  simp only [sleepDuration_eq]
  norm_num [wrapInt64, sleepTime]

/-- C4 (amended). For consecutive ordinals `i`, `i + 1` whose product
`r * 1,000,000 * (i + 1)` is representable in `int64`: the time entity `i + 1`
sleeps is at least the time entity `i` sleeps, and when moreover `r ≥ 0` the
computed delays themselves are ordered. -/
theorem C4_stagger_monotone (config : LoadTestConfig) (i : Nat)
    (h₁ : -2 ^ 63 ≤ config.UserEntitiesConfiguration.EntityRampupDistanceMilliseconds * 1000000
      * ((i + 1 : Nat) : Int))
    (h₂ : config.UserEntitiesConfiguration.EntityRampupDistanceMilliseconds * 1000000
      * ((i + 1 : Nat) : Int) < 2 ^ 63) :
    sleepTime (sleepDuration config i) ≤ sleepTime (sleepDuration config (i + 1)) ∧
    (0 ≤ config.UserEntitiesConfiguration.EntityRampupDistanceMilliseconds →
      sleepDuration config i ≤ sleepDuration config (i + 1)) := by
  have e₁ := sleepDuration_eq config i
  have e₂ := sleepDuration_eq config (i + 1)
  generalize config.UserEntitiesConfiguration.EntityRampupDistanceMilliseconds = r at *
  have hi : (0 : Int) ≤ (i : Int) := Int.ofNat_nonneg i
  have hP : r * 1000000 * ((i + 1 : Nat) : Int) = r * 1000000 * (i : Int) + r * 1000000 := by
    push_cast
    ring
  rcases le_or_lt 0 r with hr | hr
  · have h0 : 0 ≤ r * 1000000 * (i : Int) := by positivity
    have hw₁ : wrapInt64 (r * 1000000 * (i : Int)) = r * 1000000 * (i : Int) :=
      wrapInt64_of_range _ (by omega) (by omega)
    have hw₂ := wrapInt64_of_range _ h₁ h₂
    rw [e₁, e₂, hw₁, hw₂]
    refine ⟨?_, fun _ => by omega⟩
    unfold sleepTime
    omega
  · have h0 : r * 1000000 * (i : Int) ≤ 0 := by nlinarith
    have hw₁ : wrapInt64 (r * 1000000 * (i : Int)) = r * 1000000 * (i : Int) :=
      wrapInt64_of_range _ (by omega) (by omega)
    have hw₂ := wrapInt64_of_range _ h₁ h₂
    rw [e₁, e₂, hw₁, hw₂]
    refine ⟨?_, fun h => by omega⟩
    unfold sleepTime
    omega

/-- C5. For every `NumClientEntities` (zero and negative included), in every
reachable state: `stopChan` is closed only after the interrupt was received;
`statusPrinterStopChan` is closed only after the wait on `stopWait` has
returned (with `stopChan` closed, the counter at zero and every entity
goroutine at its end); the wait on `printerWait` returns only after
`statusPrinterStopChan` was closed and the printer has exited; "DONE!" is
printed only after that wait. Whenever line 68 does not panic (at least one
user, or no entity requested), the program of `StartUserEntities` is a start-up
phase followed by the fixed sequence receive the interrupt, close `stopChan`,
wait for `stopWait`, close `statusPrinterStopChan`, wait for `printerWait`,
print "DONE!", none of which occurs in the start-up phase; and every running
state has a continuation that reaches the last line with "DONE!" as the last
console line. -/
theorem C5_shutdown_order (config : LoadTestConfig) (serverState : ServerState User)
    (fns : List (UserEntityConfig User → Entity)) :
    (∀ s, Reachable config serverState fns s →
      (s.stopChanClosed = true → .receive ∈ s.executed) ∧
      (s.statusPrinterStopChanClosed = true →
        .wait .stopWait ∈ s.executed ∧ s.stopChanClosed = true ∧ s.stopWait = 0 ∧
          ∀ t ∈ s.tasks, t.rest = []) ∧
      (.wait .printerWait ∈ s.executed →
        s.statusPrinterStopChanClosed = true ∧ s.printer = .exited) ∧
      ("DONE!" ∈ s.output → .wait .printerWait ∈ s.executed) ∧
      (1 ≤ serverState.Users.length ∨
          config.UserEntitiesConfiguration.NumClientEntities ≤ 0 →
        s.status = .running →
        ∃ ls s', run config s ls = some s' ∧ s'.status = .running ∧ s'.rest = [] ∧
          s'.output.getLast? = some "DONE!")) ∧
    (1 ≤ serverState.Users.length ∨ config.UserEntitiesConfiguration.NumClientEntities ≤ 0 →
      ∃ startup, StartupOnly startup ∧
        StartUserEntities config serverState fns
          = startup ++
            [.done .entityWaitChannel,
              .println "------------------------- Done starting entities",
              .notify,
              .receive,
              .println "Shutdown signal recieved.",
              .close .stopChan,
              .println "Waiting for user entities",
              .wait .stopWait,
              .println "Flushing status reporting channel",
              .close .statusPrinterStopChan,
              .wait .printerWait,
              .println "DONE!"]) := by
  constructor
  · intro s hr
    have hg := reachable_good hr
    refine ⟨fun hc => receive_of_close hg (hg.stopChan.mp hc), ?_, ?_, waitPrinter_of_done hg, ?_⟩
    · intro hc
      have hw := wait_of_closePrinter hg (hg.statusPrinterStopChan.mp hc)
      exact ⟨hw, hg.stopChan.mpr (close_of_wait hg hw), (hg.waited hw).1, (hg.waited hw).2.1⟩
    · intro hw
      exact ⟨hg.statusPrinterStopChan.mpr (closePrinter_of_waitPrinter hg hw), hg.flushed hw⟩
    · intro hM hst
      obtain ⟨ls, s', hrun, hst', hrest'⟩ := completes hM (work s) s (le_refl _) hr hst
      exact ⟨ls, s', hrun, hst', hrest', (final_state (reachable_run hr hrun) hrest' hM).2.1⟩
  · intro hM
    obtain ⟨startup, hsplit, hS, -, -⟩ := StartUserEntities_split config serverState fns hM
    exact ⟨startup, hS, hsplit⟩

/-- C6. Assuming (as the semantics does) that every started entity performs
one `stopWait.Done()` when its `Start()` returns: in every reachable state
`stopWait` is non-negative, it equals the amount added by the orchestrator
minus the number of entity goroutines that have run to their end, and no more
goroutines have been spawned than were added; every spawn comes after the
`Add` that registered it; and once the wait on `stopWait` has returned the
counter is 0 and all `N * F` entity goroutines have been spawned, started and
have exited. -/
theorem C6_completion_counter (config : LoadTestConfig) (serverState : ServerState User)
    (fns : List (UserEntityConfig User → Entity)) (s : State User Entity)
    (hr : Reachable config serverState fns s) :
    0 ≤ s.stopWait ∧
    s.stopWait = added .stopWait s.executed - finished s.tasks ∧
    finished s.tasks ≤ (s.tasks.length : Int) ∧
    (s.tasks.length : Int) ≤ added .stopWait s.executed ∧
    (∀ e n entity r, StartUserEntities config serverState fns = e ++ .go n entity :: r →
      ((spawned e).length : Int) < added .stopWait e) ∧
    (.wait .stopWait ∈ s.executed →
      s.stopWait = 0 ∧
        s.tasks.length = config.UserEntitiesConfiguration.NumClientEntities.toNat * fns.length ∧
        ∀ t ∈ s.tasks, t.rest = [] ∧ t.started = true) := by
  have hg := reachable_good hr
  have h1 := hg.stopWait
  have h2 := hg.balance
  have h3 := hg.tasks
  have h4 := finished_le s.tasks
  refine ⟨by omega, h1, h4, by omega, ?_, ?_⟩
  · intro e n entity r hsplit
    exact (program_ordered config serverState fns hsplit).2.2
  · intro hw
    obtain ⟨hz, hall, hlen⟩ := hg.waited hw
    refine ⟨hz, hlen, fun t ht => ⟨hall t ht, ?_⟩⟩
    obtain ⟨entity, h | h | h | h⟩ := hg.shape t ht
    · rw [hall t ht, goroutine] at h
      simp at h
    · rw [hall t ht] at h
      simp at h
    · rw [hall t ht] at h
      simp at h
    · exact h.2.2

/-- C7 (as stated) fails. A negative `NumClientEntities` is not reported as a
failure, and neither is an empty user list when no entity is requested: the
orchestrator raises no panic and runs to its last line. -/
theorem C7_counterexample :
    panics (StartUserEntities ⟨⟨-1, 0⟩⟩ (⟨[0]⟩ : ServerState Nat) [fun c => c.Id]) = [] ∧
    (StartUserEntities ⟨⟨-1, 0⟩⟩ (⟨[0]⟩ : ServerState Nat) [fun c => c.Id]).getLast?
      = some (.println "DONE!") ∧
    panics (StartUserEntities ⟨⟨0, 0⟩⟩ (⟨[]⟩ : ServerState Nat) [fun c => c.Id]) = [] ∧
    ((run ⟨⟨-1, 0⟩⟩ (initial ⟨⟨-1, 0⟩⟩ (⟨[0]⟩ : ServerState Nat) [fun c => c.Id])
        [.main, .main, .main, .main, .main, .main, .main, .main, .interrupt, .main, .main,
          .main, .main, .main, .main, .printer, .main, .main]).map
      fun s => (s.status, s.rest, s.output.getLast?)) = some (.running, [], some "DONE!") := by
  refine ⟨by decide, by decide, by decide, by decide⟩

/-- C7 (amended). An empty user list with at least one entity requested makes
`StartUserEntities` panic with an integer division by zero in the first
iteration of the loop, before any creation function is invoked and before any
entity goroutine is spawned. A `NumClientEntities` that is zero or negative is
not reported: the loop body never runs, nothing is created or spawned, no
panic is raised, and the function goes on to the shutdown sequence, whatever
the user list. -/
theorem C7_configuration_errors (config : LoadTestConfig) (serverState : ServerState User)
    (fns : List (UserEntityConfig User → Entity)) :
    (serverState.Users = [] → 1 ≤ config.UserEntitiesConfiguration.NumClientEntities →
      StartUserEntities config serverState fns
        = [.add .entityWaitChannel 1, .add .printerWait 1, .goStatusPrinter,
            .println ("------------------------- Starting "
              ++ toString config.UserEntitiesConfiguration.NumClientEntities ++ " entities"),
            .println "Starting Entity: 0", .panic .integerDivideByZero] ∧
      panics (StartUserEntities config serverState fns) = [.integerDivideByZero] ∧
      creations (StartUserEntities config serverState fns) = [] ∧
      spawned (StartUserEntities config serverState fns) = []) ∧
    (config.UserEntitiesConfiguration.NumClientEntities ≤ 0 →
      StartUserEntities config serverState fns
        = [.add .entityWaitChannel 1, .add .printerWait 1, .goStatusPrinter,
            .println ("------------------------- Starting "
              ++ toString config.UserEntitiesConfiguration.NumClientEntities ++ " entities")]
          ++ shutdown ∧
      panics (StartUserEntities config serverState fns) = [] ∧
      creations (StartUserEntities config serverState fns) = [] ∧
      spawned (StartUserEntities config serverState fns) = []) := by
  constructor
  · intro hU hN
    obtain ⟨n, hn⟩ : ∃ n, config.UserEntitiesConfiguration.NumClientEntities.toNat = n + 1 :=
      ⟨config.UserEntitiesConfiguration.NumClientEntities.toNat - 1, by omega⟩
    have hprog : StartUserEntities config serverState fns
        = [.add .entityWaitChannel 1, .add .printerWait 1, .goStatusPrinter,
            .println ("------------------------- Starting "
              ++ toString config.UserEntitiesConfiguration.NumClientEntities ++ " entities"),
            .println "Starting Entity: 0", .panic .integerDivideByZero] := by
      simp only [StartUserEntities, ordinals, hn, List.range_succ_eq_map, startLoop, hU,
        selectUser_nil]
      rfl
    rw [hprog]
    simp [panics, creations, spawned, Action.panic?, Action.creation?, Action.spawn?]
  · intro hN
    rw [StartUserEntities_of_nonpos config serverState fns hN]
    simp [panics, creations, spawned, Action.panic?, Action.creation?, Action.spawn?, shutdown]

/-- C8 (as stated) fails. Closing the stop channel a second time panics: the
built-in `close` is not idempotent. And not every run in which an interrupt is
delivered ends with the stop channel closed: with no entity requested, an
interrupt that arrives after the first action of the orchestrator ends the
process with the stop channel open. -/
theorem C8_counterexample :
    (((initial ⟨⟨0, 0⟩⟩ (⟨[0]⟩ : ServerState Nat)
        ([] : List (UserEntityConfig Nat → Nat))).closeChan .stopChan).closeChan
        .stopChan).status
      = .panicked .closeOfClosedChannel ∧
    ((run ⟨⟨0, 0⟩⟩ (initial ⟨⟨0, 0⟩⟩ (⟨[0]⟩ : ServerState Nat)
        ([] : List (UserEntityConfig Nat → Nat))) [.main, .interrupt]).map
      fun s => (s.status, s.stopChanClosed)) = some (.killed, false) := by
  refine ⟨by decide, by decide⟩

/-- C8 (amended). `StartUserEntities` never closes the stop channel twice: the
program contains a single `close(stopChan)`, preceded by its single receive
from the interrupt channel. No reachable state has panicked with a close of a
closed channel or a negative wait-group counter. An interrupt delivered after
the first one was received is dropped: it changes nothing (no second close, no
counter change). Whenever line 68 does not panic, every state in which the
orchestrator has reached its last line has the stop channel closed and the
process running, and every running state has a continuation to such a state. -/
theorem C8_single_close (config : LoadTestConfig) (serverState : ServerState User)
    (fns : List (UserEntityConfig User → Entity)) :
    (∀ e r, StartUserEntities config serverState fns = e ++ .close .stopChan :: r →
      .receive ∈ e ∧ .close .stopChan ∉ e ∧ .close .stopChan ∉ r) ∧
    (∀ e r, StartUserEntities config serverState fns = e ++ .receive :: r →
      .receive ∉ e ∧ .receive ∉ r) ∧
    (∀ s, Reachable config serverState fns s →
      s.status ≠ .panicked .closeOfClosedChannel ∧
      s.status ≠ .panicked .negativeWaitGroupCounter ∧
      (.receive ∈ s.executed → s.status = .running → step config s .interrupt = some s) ∧
      (1 ≤ serverState.Users.length ∨
          config.UserEntitiesConfiguration.NumClientEntities ≤ 0 →
        (s.rest = [] → s.stopChanClosed = true ∧ s.status = .running) ∧
        (s.status = .running →
          ∃ ls s', run config s ls = some s' ∧ s'.status = .running ∧ s'.rest = [] ∧
            s'.stopChanClosed = true))) := by
  refine ⟨?_, ?_, ?_⟩
  · intro e r hsplit
    have ho := program_ordered config serverState fns hsplit
    refine ⟨ho.1, ho.2, ?_⟩
    intro hm
    obtain ⟨r₁, r₂, hr⟩ := List.append_of_mem hm
    have hsplit' : StartUserEntities config serverState fns
        = (e ++ .close .stopChan :: r₁) ++ .close .stopChan :: r₂ := by
      rw [hsplit, hr]
      simp
    have ho' := program_ordered config serverState fns hsplit'
    exact ho'.2 (by simp)
  · intro e r hsplit
    have ho := program_ordered config serverState fns hsplit
    refine ⟨ho.2.2.1, ?_⟩
    intro hm
    obtain ⟨r₁, r₂, hr⟩ := List.append_of_mem hm
    have hsplit' : StartUserEntities config serverState fns
        = (e ++ .receive :: r₁) ++ .receive :: r₂ := by
      rw [hsplit, hr]
      simp
    have ho' := program_ordered config serverState fns hsplit'
    exact ho'.2.2.1 (by simp)
  · intro s hr
    have hg := reachable_good hr
    refine ⟨?_, ?_, ?_, ?_⟩
    · intro hp
      have := (hg.panicked _ hp).1
      simp at this
    · intro hp
      have := (hg.panicked _ hp).1
      simp at this
    · intro hrecv hst
      have hh : s.handler = true := hg.handler.mpr (notify_of_receive hg hrecv)
      have hhead : ∀ r, s.rest ≠ .receive :: r := by
        intro r hrest
        have ho : ProgramOrder config serverState fns s.executed .receive :=
          program_ordered config serverState fns (by rw [← hg.prog, hrest])
        exact ho.2.2.1 hrecv
      unfold step
      rw [if_neg (by simp [hst])]
      show stepInterrupt s = some s
      unfold stepInterrupt
      rw [if_pos hh]
      split
      · rename_i r hrest
        exact absurd hrest (hhead _)
      · rfl
    · intro hM
      constructor
      · intro hrest
        have hf := final_state hr hrest hM
        exact ⟨hf.2.2.1, hf.2.2.2.2.2.2.2.2.2.2.2⟩
      · intro hst
        obtain ⟨ls, s', hrun, hst', hrest'⟩ := completes hM (work s) s (le_refl _) hr hst
        exact ⟨ls, s', hrun, hst', hrest',
          (final_state (reachable_run hr hrun) hrest' hM).2.2.1⟩

/-- C9 (as stated) fails. With one entity, one creation function and one
user, an interrupt delivered right after the spawn of the entity's goroutine
finds no handler registered: the process is killed with the stop channel
open, nothing but the two start-up lines printed, and no further move. -/
theorem C9_counterexample :
    ((run ⟨⟨1, 100⟩⟩ (initial ⟨⟨1, 100⟩⟩ (⟨[0]⟩ : ServerState Nat) [fun c => c.Id])
        [.main, .main, .main, .main, .main, .main, .main, .main, .main, .interrupt]).map
      fun s => (s.tasks.length, s.handler, s.status, s.stopChanClosed, s.output,
        (step ⟨⟨1, 100⟩⟩ s .main).isNone))
      = some (1, false, .killed, false,
          ["------------------------- Starting 1 entities", "Starting Entity: 0"], true) := by
  rfl

/-- C9 (amended). The interrupt handler is registered only after the start-up
loop: in every reachable state with the handler in place the barrier has been
opened, all `N * F` entities have been created and their goroutines spawned,
and the process is running. An interrupt delivered before that kills the
process: the stop channel stays open, "DONE!" is never printed and nothing
moves any more. With the handler in place, an interrupt that does not find the
orchestrator blocked in the receive of line 111 is dropped and changes
nothing; this is so between the return of `signal.Notify` and the moment the
orchestrator blocks in the receive, where the orchestrator is at the receive
with the stop channel open and its next move is to block. An interrupt that
finds the orchestrator blocked in the receive is received. From the receipt on,
in every execution the process keeps running, the moves other than dropped
interrupts are bounded by `work`, a move other than an interrupt is possible
as long as the orchestrator is not at its last line, and at the last line the
stop channel is closed, the completion counter is zero, the status printer has
exited and "DONE!" is the last line printed. Whenever line 68 does not panic
(at least one user, or no entity requested), every running state has a
continuation, with an interrupt delivered to the blocked receive, that ends
so. -/
theorem C9_interrupt_handler (config : LoadTestConfig) (serverState : ServerState User)
    (fns : List (UserEntityConfig User → Entity)) (s : State User Entity)
    (hr : Reachable config serverState fns s) :
    (s.handler = true →
      .done .entityWaitChannel ∈ s.executed ∧
        s.tasks.length = config.UserEntitiesConfiguration.NumClientEntities.toNat * fns.length ∧
        (creations s.executed).length
          = config.UserEntitiesConfiguration.NumClientEntities.toNat * fns.length ∧
        s.status = .running) ∧
    (s.handler = false → s.status = .running →
      step config s .interrupt = some { s with status := .killed }) ∧
    (s.status = .killed →
      s.handler = false ∧ s.stopChanClosed = false ∧ "DONE!" ∉ s.output ∧
        ∀ l, step config s l = none) ∧
    (s.handler = true → s.receiving = false → step config s .interrupt = some s) ∧
    (s.handler = true → .receive ∉ s.executed →
      (∃ r, s.rest = .receive :: r) ∧ s.stopChanClosed = false ∧
        (s.receiving = false → step config s .main = some { s with receiving := true })) ∧
    (s.receiving = true →
      s.handler = true ∧ .receive ∉ s.executed ∧ step config s .main = none ∧
        ∃ s₁, step config s .interrupt = some s₁ ∧ .receive ∈ s₁.executed ∧
          s₁.receiving = false ∧ s₁.status = .running) ∧
    (.receive ∈ s.executed →
      ∀ ls s', run config s ls = some s' →
        s'.status = .running ∧
        (ls.filter (· ≠ .interrupt)).length + work s' ≤ work s ∧
        (s'.rest ≠ [] → ∃ l s'', l ≠ .interrupt ∧ step config s' l = some s'') ∧
        (s'.rest = [] →
          s'.stopChanClosed = true ∧ s'.stopWait = 0 ∧ s'.printer = .exited ∧
            s'.output.getLast? = some "DONE!")) ∧
    (1 ≤ serverState.Users.length ∨
        config.UserEntitiesConfiguration.NumClientEntities ≤ 0 →
      s.status = .running →
      ∃ ls s', run config s ls = some s' ∧ s'.status = .running ∧ s'.rest = [] ∧
        s'.stopChanClosed = true ∧ s'.stopWait = 0 ∧ s'.printer = .exited ∧
        s'.output.getLast? = some "DONE!") := by
  have hg := reachable_good hr
  have ha := reachable_atReceive hr
  refine ⟨?_, ?_, ?_, ?_, ?_, ?_, ?_, ?_⟩
  · intro hh
    have hn := hg.handler.mp hh
    have hd := done_of_notify hg hn
    have ho := hg.opened hd
    exact ⟨hd, by rw [hg.tasks]; exact ho.1, ho.2, running_of_notify hg hn⟩
  · intro hh hst
    simp [step, hst, stepInterrupt, hh]
  · intro hk
    have hn := hg.killed hk
    have hh : s.handler = false := by
      cases h : s.handler with
      | false => rfl
      | true => exact absurd (hg.handler.mp h) hn
    have hc : s.stopChanClosed = false := by
      cases h : s.stopChanClosed with
      | false => rfl
      | true => exact absurd (notify_of_receive hg (receive_of_close hg (hg.stopChan.mp h))) hn
    refine ⟨hh, hc, ?_, ?_⟩
    · intro hd
      have h1 := waitPrinter_of_done hg hd
      have h2 := closePrinter_of_waitPrinter hg h1
      have h3 := wait_of_closePrinter hg h2
      have h4 := close_of_wait hg h3
      exact hn (notify_of_receive hg (receive_of_close hg h4))
    · intro l
      simp [step, hk]
  · intro hh hrc
    have hst := running_of_notify hg (hg.handler.mp hh)
    unfold step
    rw [if_neg (by simp [hst])]
    show stepInterrupt s = some s
    unfold stepInterrupt
    rw [if_pos hh]
    split
    · simp [hrc]
    · rfl
  · intro hh hnr
    have hn := hg.handler.mp hh
    obtain ⟨r, hrest⟩ := rest_of_notify hg hn hnr
    refine ⟨⟨r, hrest⟩, ?_, ?_⟩
    · cases h : s.stopChanClosed with
      | false => rfl
      | true => exact absurd (receive_of_close hg (hg.stopChan.mp h)) hnr
    · intro hrc
      simp [step, running_of_notify hg hn, hrest, hrc]
  · intro hrc
    obtain ⟨hh, r, hrest⟩ := ha hrc
    have hst := running_of_notify hg (hg.handler.mp hh)
    have ho : ProgramOrder config serverState fns s.executed .receive :=
      program_ordered config serverState fns (by rw [← hg.prog, hrest])
    refine ⟨hh, ho.2.2.1, ?_, ?_⟩
    · simp [step, hst, hrest, hrc]
    · refine ⟨State.advance { s with receiving := false }, ?_, ?_, ?_, ?_⟩
      · simp [step, hst, stepInterrupt, hh, hrest, hrc]
      · simp [State.advance, hst, hrest]
      · simp [State.advance, hst, hrest]
      · simp [State.advance, hst, hrest]
  · intro hrecv ls s' hrun
    obtain ⟨h1, h2, h3⟩ := run_after_receive ls s s' hr hrecv hrun
    have hr' := reachable_run hr hrun
    have hg' := reachable_good hr'
    refine ⟨h2, h3, move_after_receive hg' h1, ?_⟩
    intro hrest
    have hf := final_state hr' hrest (noPanic_of_notify hg' (notify_of_receive hg' h1))
    exact ⟨hf.2.2.1, hf.2.2.2.2.2.1, hf.2.2.2.2.2.2.2.2.1, hf.2.1⟩
  · intro hM hst
    obtain ⟨ls, s', hrun, hst', hrest'⟩ := completes hM (work s) s (le_refl _) hr hst
    have hf := final_state (reachable_run hr hrun) hrest' hM
    exact ⟨ls, s', hrun, hst', hrest', hf.2.2.1, hf.2.2.2.2.2.1, hf.2.2.2.2.2.2.2.2.1, hf.2.1⟩

/-- C10. In every reachable state the counter of `entityWaitChannel` is 0 or
1 (never negative), and it is 1 exactly between its `Add(1)` and its `Done()`.
Every entity goroutine goes through barrier wait, sleep and `entity.Start()`
in this order, and a goroutine that is past its barrier wait implies that the
barrier was opened with all `N * F` entities created and their goroutines
spawned. Whenever line 68 does not panic (at least one user, or no entity
requested), the program adds 1 to `entityWaitChannel` as its first action and
calls `Done` on it exactly once, after a start-up phase that contains all
`N * F` creations and spawns; nothing is created or spawned afterwards. -/
theorem C10_release_barrier (config : LoadTestConfig) (serverState : ServerState User)
    (fns : List (UserEntityConfig User → Entity)) :
    (∀ s, Reachable config serverState fns s →
      (s.entityWaitChannel = 0 ∨ s.entityWaitChannel = 1) ∧
      (s.entityWaitChannel = 1 ↔
        .add .entityWaitChannel 1 ∈ s.executed ∧ .done .entityWaitChannel ∉ s.executed) ∧
      (∀ t ∈ s.tasks, ∃ entity,
        (t.rest = [.waitBarrier, .sleep (sleepDuration config t.entityNum), .start entity] ∧
          t.started = false) ∨
        (t.rest = [.sleep (sleepDuration config t.entityNum), .start entity] ∧
          t.started = false) ∨
        t.rest = [.start entity] ∨
        (t.rest = [] ∧ t.started = true)) ∧
      (∀ t ∈ s.tasks, t.started = true ∨ t.rest.length < 3 →
        .done .entityWaitChannel ∈ s.executed ∧
          s.tasks.length
            = config.UserEntitiesConfiguration.NumClientEntities.toNat * fns.length ∧
          (creations s.executed).length
            = config.UserEntitiesConfiguration.NumClientEntities.toNat * fns.length)) ∧
    (1 ≤ serverState.Users.length ∨ config.UserEntitiesConfiguration.NumClientEntities ≤ 0 →
      ∃ loop tail, StartUserEntities config serverState fns
          = .add .entityWaitChannel 1 :: loop ++ .done .entityWaitChannel :: tail ∧
        (∀ a ∈ loop, a.isStartup = true ∧ a.delta .entityWaitChannel = 0) ∧
        (spawned loop).length
          = config.UserEntitiesConfiguration.NumClientEntities.toNat * fns.length ∧
        (creations loop).length
          = config.UserEntitiesConfiguration.NumClientEntities.toNat * fns.length ∧
        (∀ a ∈ tail, a ≠ .done .entityWaitChannel ∧ a.delta .entityWaitChannel = 0 ∧
          a.spawn? = none ∧ a.creation? = none)) := by
  constructor
  · intro s hr
    have hg := reachable_good hr
    refine ⟨hg.barrier.1, hg.barrier.2, ?_, ?_⟩
    · intro t ht
      obtain ⟨entity, h1 | h2 | h3 | h4⟩ := hg.shape t ht
      · exact ⟨entity, Or.inl h1⟩
      · exact ⟨entity, Or.inr (Or.inl h2.2)⟩
      · exact ⟨entity, Or.inr (Or.inr (Or.inl h3.2))⟩
      · exact ⟨entity, Or.inr (Or.inr (Or.inr h4.2))⟩
    · intro t ht hpast
      have hd : Action.done .entityWaitChannel ∈ s.executed := by
        obtain ⟨entity, h1 | h2 | h3 | h4⟩ := hg.shape t ht
        · rcases hpast with hp | hp
          · rw [h1.2] at hp
            simp at hp
          · rw [h1.1, goroutine] at hp
            simp at hp
        · exact h2.1
        · exact h3.1
        · exact h4.1
      have ho := hg.opened hd
      exact ⟨hd, by rw [hg.tasks]; exact ho.1, ho.2⟩
  · intro hM
    obtain ⟨startup, hsplit, hS, hs, hc⟩ := StartUserEntities_split config serverState fns hM
    cases startup with
    | nil =>
      have : StartUserEntities config serverState fns = shutdown := by simpa using hsplit
      simp [StartUserEntities, shutdown] at this
    | cons a loop =>
      have ha : a = .add .entityWaitChannel 1 := by
        have := congrArg List.head? hsplit
        simp only [StartUserEntities, List.head?_cons, List.cons_append] at this
        exact (Option.some.inj this).symm
      subst ha
      refine ⟨loop, shutdown.tail, ?_, ?_, ?_, ?_, ?_⟩
      · rw [hsplit]
        rfl
      · intro b hb
        have hb' : b ∈ Action.add WaitGroupName.entityWaitChannel 1 :: loop :=
          List.mem_cons_of_mem _ hb
        refine ⟨hS b hb', ?_⟩
        obtain ⟨l₁, l₂, hl⟩ := List.append_of_mem hb
        have hsplit' : StartUserEntities config serverState fns
            = (.add .entityWaitChannel 1 :: l₁) ++ b :: (l₂ ++ shutdown) := by
          rw [hsplit, hl]
          simp
        have ho := program_ordered config serverState fns hsplit'
        cases b with
        | add wg d =>
          cases wg with
          | entityWaitChannel => simp [ProgramOrder] at ho
          | _ => simp [Action.delta]
        | _ => simp [Action.delta]
      · simpa [spawned, Action.spawn?, total] using hs
      · simpa [creations, Action.creation?, total] using hc
      · intro b hb
        simp only [shutdown, List.tail_cons, List.mem_cons, List.mem_singleton,
          List.not_mem_nil, or_false] at hb
        rcases hb with rfl | rfl | rfl | rfl | rfl | rfl | rfl | rfl | rfl | rfl | rfl <;>
          simp [Action.delta, Action.spawn?, Action.creation?]

end Claims

/-! ## The claims at the scenario -/

section Witnesses

/-- C1 at the scenario: two users, so the hypothesis holds; no panic, and the
three configurations carry the users 10, 20, 10. -/
theorem C1_entity_user_assignment_witness :
    1 ≤ scenarioState.Users.length ∧
    panics (StartUserEntities scenarioConfig scenarioState scenarioFns) = [] ∧
    (creations (StartUserEntities scenarioConfig scenarioState scenarioFns)).map
      (fun c => (c.2.1.Id, c.2.1.EntityUser)) = [(0, 10), (1, 20), (2, 10)] :=
  ⟨by decide,
    (C1_entity_user_assignment scenarioConfig scenarioState scenarioFns (by decide)).2.1,
    by decide⟩

/-- C2 at the scenario: three creations, three spawns, 3 added to `stopWait`. -/
theorem C2_startup_creations_witness :
    1 ≤ scenarioState.Users.length ∧
    (creations (StartUserEntities scenarioConfig scenarioState scenarioFns)).length = 3 * 1 ∧
    added .stopWait (StartUserEntities scenarioConfig scenarioState scenarioFns)
      = ((3 : Nat) : Int) * ((1 : Nat) : Int) :=
  ⟨by decide,
    (C2_startup_creations scenarioConfig scenarioState scenarioFns (Or.inl (by decide))).2.2.1,
    (C2_startup_creations scenarioConfig scenarioState scenarioFns (Or.inl (by decide))).2.2.2.2.1⟩

/-- C3 at the scenario: entity 2 sleeps two rampup intervals of 100 ms. -/
theorem C3_stagger_delay_witness :
    sleepDuration scenarioConfig 2 = 200000000 ∧
    sleepDuration scenarioConfig 2
      = scenarioConfig.UserEntitiesConfiguration.EntityRampupDistanceMilliseconds * ((2 : Nat) : Int)
          * Millisecond :=
  ⟨by decide, (C3_stagger_delay scenarioConfig 2 (0 : Int)).2.2.1 (by decide) (by decide)⟩

/-- C4 (amended) at the scenario: entity 1 sleeps 100 ms, entity 2 sleeps 200 ms. -/
theorem C4_stagger_monotone_witness :
    (-2 ^ 63 ≤ scenarioConfig.UserEntitiesConfiguration.EntityRampupDistanceMilliseconds
        * 1000000 * ((1 + 1 : Nat) : Int) ∧
      scenarioConfig.UserEntitiesConfiguration.EntityRampupDistanceMilliseconds
        * 1000000 * ((1 + 1 : Nat) : Int) < 2 ^ 63) ∧
    sleepTime (sleepDuration scenarioConfig 1) ≤ sleepTime (sleepDuration scenarioConfig (1 + 1)) ∧
    sleepDuration scenarioConfig 1 = 100000000 ∧
    sleepDuration scenarioConfig (1 + 1) = 200000000 :=
  ⟨by decide, (C4_stagger_monotone scenarioConfig 1 (by decide) (by decide)).1, by decide,
    by decide⟩

/-- C5 at the end of the scenario: the printer's stop channel is closed, and
the wait on `stopWait` has returned with every entity goroutine at its end. -/
theorem C5_shutdown_order_witness :
    1 ≤ scenarioState.Users.length ∧
    Reachable scenarioConfig scenarioState scenarioFns scenarioFinal ∧
    scenarioFinal.statusPrinterStopChanClosed = true ∧
    (.wait .stopWait ∈ scenarioFinal.executed ∧ scenarioFinal.stopChanClosed = true ∧
      scenarioFinal.stopWait = 0 ∧ ∀ t ∈ scenarioFinal.tasks, t.rest = []) :=
  ⟨by decide, scenario_reachable, by decide,
    ((C5_shutdown_order scenarioConfig scenarioState scenarioFns).1 scenarioFinal
      scenario_reachable).2.1 (by decide)⟩

/-- C6 at the end of the scenario: the wait on `stopWait` has returned, the
counter is 0 and the three entity goroutines have exited. -/
theorem C6_completion_counter_witness :
    Reachable scenarioConfig scenarioState scenarioFns scenarioFinal ∧
    .wait .stopWait ∈ scenarioFinal.executed ∧
    (scenarioFinal.stopWait = 0 ∧
      scenarioFinal.tasks.length
        = scenarioConfig.UserEntitiesConfiguration.NumClientEntities.toNat * scenarioFns.length ∧
      ∀ t ∈ scenarioFinal.tasks, t.rest = [] ∧ t.started = true) :=
  ⟨scenario_reachable, by decide,
    (C6_completion_counter scenarioConfig scenarioState scenarioFns scenarioFinal
      scenario_reachable).2.2.2.2.2 (by decide)⟩

/-- C7 (amended) at two inputs: no user and two entities requested; one user
and a negative entity count. -/
theorem C7_configuration_errors_witness :
    panics (StartUserEntities ⟨⟨2, 0⟩⟩ (⟨[]⟩ : ServerState Nat) scenarioFns)
      = [.integerDivideByZero] ∧
    spawned (StartUserEntities ⟨⟨2, 0⟩⟩ (⟨[]⟩ : ServerState Nat) scenarioFns) = [] ∧
    panics (StartUserEntities ⟨⟨-1, 0⟩⟩ scenarioState scenarioFns) = [] :=
  ⟨((C7_configuration_errors ⟨⟨2, 0⟩⟩ (⟨[]⟩ : ServerState Nat) scenarioFns).1 rfl
      (by decide)).2.1,
    ((C7_configuration_errors ⟨⟨2, 0⟩⟩ (⟨[]⟩ : ServerState Nat) scenarioFns).1 rfl
      (by decide)).2.2.2,
    ((C7_configuration_errors ⟨⟨-1, 0⟩⟩ scenarioState scenarioFns).2 (by decide)).2.1⟩

/-- C8 (amended) at the end of the scenario: one more interrupt changes nothing. -/
theorem C8_single_close_witness :
    Reachable scenarioConfig scenarioState scenarioFns scenarioFinal ∧
    scenarioFinal.stopChanClosed = true ∧
    step scenarioConfig scenarioFinal .interrupt = some scenarioFinal :=
  ⟨scenario_reachable, by decide,
    ((C8_single_close scenarioConfig scenarioState scenarioFns).2.2 scenarioFinal
      scenario_reachable).2.2.1 (by decide) (by decide)⟩

/-- C9 (amended) at the scenario. Right after `signal.Notify` the handler is
registered and the orchestrator is not yet blocked in the receive: an
interrupt is dropped, the state stays as it is. At the end of the scenario the
handler is registered, the three entities had been created and spawned, and
the process is running. -/
theorem C9_interrupt_handler_witness :
    Reachable scenarioConfig scenarioState scenarioFns scenarioNotified ∧
    scenarioNotified.handler = true ∧ scenarioNotified.receiving = false ∧
    scenarioNotified.stopChanClosed = false ∧
    step scenarioConfig scenarioNotified .interrupt = some scenarioNotified ∧
    Reachable scenarioConfig scenarioState scenarioFns scenarioFinal ∧
    scenarioFinal.handler = true ∧
    (.done .entityWaitChannel ∈ scenarioFinal.executed ∧
      scenarioFinal.tasks.length
        = scenarioConfig.UserEntitiesConfiguration.NumClientEntities.toNat * scenarioFns.length ∧
      (creations scenarioFinal.executed).length
        = scenarioConfig.UserEntitiesConfiguration.NumClientEntities.toNat
          * scenarioFns.length ∧
      scenarioFinal.status = .running) :=
  ⟨scenarioNotified_reachable, by decide, by decide, by decide,
    (C9_interrupt_handler scenarioConfig scenarioState scenarioFns scenarioNotified
      scenarioNotified_reachable).2.2.2.1 (by decide) (by decide),
    scenario_reachable, by decide,
    (C9_interrupt_handler scenarioConfig scenarioState scenarioFns scenarioFinal
      scenario_reachable).1 (by decide)⟩

/-- C10 at the end of the scenario: the barrier counter is 0 or 1, and it is
not 1 since the barrier was opened. -/
theorem C10_release_barrier_witness :
    1 ≤ scenarioState.Users.length ∧
    Reachable scenarioConfig scenarioState scenarioFns scenarioFinal ∧
    (scenarioFinal.entityWaitChannel = 0 ∨ scenarioFinal.entityWaitChannel = 1) ∧
    (scenarioFinal.entityWaitChannel = 1 ↔
      .add .entityWaitChannel 1 ∈ scenarioFinal.executed ∧
        .done .entityWaitChannel ∉ scenarioFinal.executed) :=
  ⟨by decide, scenario_reachable,
    ((C10_release_barrier scenarioConfig scenarioState scenarioFns).1 scenarioFinal
      scenario_reachable).1,
    ((C10_release_barrier scenarioConfig scenarioState scenarioFns).1 scenarioFinal
      scenario_reachable).2.1⟩

end Witnesses

end LoadTest
